import Mathlib

/-!
Verification development for the RTXTS tiled-texture residency manager
(`TiledTextureManager.cpp`, `TiledTextureAllocator.cpp`,
`tiledTextureManagerHelper.h`, public header).

The C++ code is shallowly embedded: `uint32_t` values become `Nat` (with an
explicit `% 256` wherever the source stores into a `uint8_t` field),
`std::vector` becomes `List` (out-of-range reads use `getD` with the
value-initialized default, matching `resize`'s zero-initialization),
`float` timestamps become integers (the engine only subtracts and compares
them; every claim uses integral times, which `float` represents exactly),
and the `float` timeout becomes `Option ℤ` with `none` for `+inf`, so that
an infinite timeout compares like IEEE `+inf` against finite time deltas.
The `LRUQueue` (a `std::list` plus a hash map used only
to locate nodes) is modelled as a `List` whose head is the queue front; in
the source the map guarantees at most one live node per key in intended use,
so `List.erase` (first occurrence) models `erase`.
-/

namespace Rtxts

set_option maxRecDepth 100000

def UINT32MAX : Nat := 4294967295

/-- Tile lifecycle states (enum `TileState`, `TiledTextureManagerImpl.h`). -/
inductive TileState where
  | Free
  | Requested
  | Allocated
  | Mapped
  | Standby
deriving DecidableEq, Repr, Inhabited

/-- `TileCoord` (public header).  `mipLevel` is a `uint8_t` field in the
source, so every assignment to it is reduced `% 256` at the assignment
sites. -/
structure TileCoord where
  x : Nat := 0
  y : Nat := 0
  mipLevel : Nat := 0
deriving DecidableEq, Repr, Inhabited

/-- `TiledLevelDesc` (public header). -/
structure TiledLevelDesc where
  widthInTiles : Nat := 0
  heightInTiles : Nat := 0
deriving DecidableEq, Repr, Inhabited

/-- `TiledTextureDesc` (public header).  The source passes
`tiledLevelDescs` as a raw pointer together with `regularMipLevelsNum`;
here the levels are a list read with `getD`. -/
structure TiledTextureDesc where
  textureWidth : Nat := 0
  textureHeight : Nat := 0
  tiledLevelDescs : List TiledLevelDesc := []
  regularMipLevelsNum : Nat := 0
  packedMipLevelsNum : Nat := 0
  packedTilesNum : Nat := 0
  tileWidth : Nat := 0
  tileHeight : Nat := 0
deriving DecidableEq, Repr, Inhabited

/-- `TextureAndTile` (public header). -/
structure TextureAndTile where
  textureId : Nat := 0
  tileIndex : Nat := 0
deriving DecidableEq, Repr, Inhabited

/-- `TileAllocation` (public header).  The raw back-pointer `pHeap` is
modelled as the owning heap's id (heap ids are unique), `none` standing for
`nullptr`. -/
structure TileAllocation where
  heapId : Nat := 0
  heapTileIndex : Nat := UINT32MAX
  pHeap : Option Nat := none
deriving DecidableEq, Repr, Inhabited

/-- `TileAllocation::IsValid`. -/
def TileAllocation.IsValid (a : TileAllocation) : Bool :=
  a.pHeap.isSome && a.heapTileIndex != UINT32MAX

/-- `MipLevelTilingDesc` (`TiledTextureManagerImpl.h`). -/
structure MipLevelTilingDesc where
  firstTileIndex : Nat := 0
  tilesX : Nat := 0
  tilesY : Nat := 0
deriving DecidableEq, Repr, Inhabited

/-- `TiledTextureSharedDesc` (`TiledTextureManagerImpl.h`).
`regularMipLevelsNum` and `packedMipLevelsNum` are `uint8_t` fields. -/
structure TiledTextureSharedDesc where
  regularTilesNum : Nat := 0
  packedTilesNum : Nat := 0
  regularMipLevelsNum : Nat := 0
  packedMipLevelsNum : Nat := 0
  tileWidth : Nat := 0
  tileHeight : Nat := 0
  feedbackGranularityX : Nat := 1
  feedbackGranularityY : Nat := 1
  feedbackTilesX : Nat := 0
  feedbackTilesY : Nat := 0
  mipLevelTilingDescs : List MipLevelTilingDesc := []
  tileIndexToTileCoord : List TileCoord := []
  tileIndexToLowerMipTileIndex : List Nat := []
deriving DecidableEq, Repr, Inhabited

/-! ### BitArray (`tiledTextureManagerHelper.h`)

The bit array is modelled as a `List Bool` of length `bitsNum`;
`SetBit`/`GetBit` index it directly. -/

/-- `BitArray::Init(n)` — all bits clear. -/
def bitArrayInit (n : Nat) : List Bool := List.replicate n false

/-- `BitArray::SetBit`. -/
def setBit (b : List Bool) (i : Nat) : List Bool := b.set i true

/-- `BitArray::GetBit`. -/
def getBit (b : List Bool) (i : Nat) : Bool := b.getD i false

/-! ### `PrevPowerOf2` (`tiledTextureManagerHelper.h`)

The bit-smearing runs on a `uint32_t`; on `Nat` it computes the same value
for inputs `< 2^32` because `|||` and `>>>` never overflow. -/

/-- One smearing step `x = x | (x >> k)` of `PrevPowerOf2`. -/
def orShift (y k : Nat) : Nat := y ||| (y >>> k)

/-- `PrevPowerOf2`: largest power of two `≤ x` (and `0` for `x = 0`). -/
def PrevPowerOf2 (x : Nat) : Nat :=
  let x5 := orShift (orShift (orShift (orShift (orShift x 1) 2) 4) 8) 16
  x5 - (x5 >>> 1)

/-! ### Texture layout construction (`TiledTextureManagerImpl::InitTiledTexture`)

The source builds `mipLevelTilingDescs` with a running `regularTilesNum`
accumulator; `mipFirstTileIndex d i` is the accumulator value when level `i`
is reached, i.e. the prefix sum of the per-level tile counts. -/

/-- `tiledTextureDesc.tiledLevelDescs[i]` (raw-pointer read in the source). -/
def levelDesc (d : TiledTextureDesc) (i : Nat) : TiledLevelDesc :=
  d.tiledLevelDescs.getD i default

/-- First tile index of regular mip level `i` (running accumulator). -/
def mipFirstTileIndex (d : TiledTextureDesc) (i : Nat) : Nat :=
  (List.range i).foldl
    (fun acc k => acc + (levelDesc d k).widthInTiles * (levelDesc d k).heightInTiles) 0

/-- Total regular tile count (`desc.regularTilesNum` after the first loop). -/
def regularTilesNumOf (d : TiledTextureDesc) : Nat :=
  mipFirstTileIndex d d.regularMipLevelsNum

/-- `desc.mipLevelTilingDescs` after the first loop of `InitTiledTexture`. -/
def mipLevelTilingDescsOf (d : TiledTextureDesc) : List MipLevelTilingDesc :=
  (List.range d.regularMipLevelsNum).map fun i =>
    { firstTileIndex := mipFirstTileIndex d i
      tilesX := (levelDesc d i).widthInTiles
      tilesY := (levelDesc d i).heightInTiles }

/-- `desc.packedTilesNum` (set only when `packedMipLevelsNum` is nonzero). -/
def packedTilesNumOf (d : TiledTextureDesc) : Nat :=
  if d.packedMipLevelsNum ≠ 0 then d.packedTilesNum else 0

/-- The `while (feedbackTileWidth > halfTextureWidth)` loop shrinking the
feedback tile size by `PrevPowerOf2(size - 1)` steps, written with explicit
fuel so it evaluates in the kernel.  The loop value strictly decreases
(`PrevPowerOf2_le`), so any fuel `≥` the start value gives the while loop's
result (`feedbackTileSizeLoop_congr` below). -/
def feedbackTileSizeLoop (halfTexSize : Nat) : Nat → Nat → Nat
  | 0, fbTileSize => fbTileSize
  | fuel + 1, fbTileSize =>
    if halfTexSize < fbTileSize then
      feedbackTileSizeLoop halfTexSize fuel (PrevPowerOf2 (fbTileSize - 1))
    else fbTileSize

/-- Resulting feedback tile width for texture size `texSize` and tile size
`tileSize` (the loop starts from `tileSize` with bound `texSize / 2`). -/
def feedbackTileSize (texSize tileSize : Nat) : Nat :=
  feedbackTileSizeLoop (texSize / 2) tileSize tileSize

/-- The entry written to `tileIndexToLowerMipTileIndex` for the regular tile
at mip `i`, coordinate `(x, y)` (lines 501–507 of the source: the
coordinate is halved and the next regular level is indexed, or
`regularTilesNum` for the last regular level). -/
def lowerMipEntry (d : TiledTextureDesc) (i x y : Nat) : Nat :=
  if i + 1 < d.regularMipLevelsNum then
    mipFirstTileIndex d (i + 1) +
      (y >>> 1) * (levelDesc d (i + 1)).widthInTiles + (x >>> 1)
  else
    regularTilesNumOf d

/-- The block of `tileIndexToLowerMipTileIndex` entries appended by the
row/column loops for regular mip `i` (the two inner loops of lines
496–510). -/
def lowerMipBlock (d : TiledTextureDesc) (i : Nat) : List Nat :=
  (List.range (levelDesc d i).heightInTiles).flatMap fun y =>
    (List.range (levelDesc d i).widthInTiles).map fun x => lowerMipEntry d i x y

/-- `desc.tileIndexToLowerMipTileIndex` built by the nested
mip/row/column loops; the flat list concatenates the per-level blocks in
loop order. -/
def lowerMipTableOf (d : TiledTextureDesc) : List Nat :=
  (List.range d.regularMipLevelsNum).flatMap (lowerMipBlock d)

/-- `desc.tileIndexToTileCoord` built by the same nested loops, with the
packed tiles appended (`mipLevel` is a `uint8_t`, hence `% 256`). -/
def tileCoordTableOf (d : TiledTextureDesc) : List TileCoord :=
  ((List.range d.regularMipLevelsNum).flatMap fun i =>
    (List.range (levelDesc d i).heightInTiles).flatMap fun y =>
      (List.range (levelDesc d i).widthInTiles).map fun x =>
        { x := x, y := y, mipLevel := i % 256 : TileCoord }) ++
  ((List.range (packedTilesNumOf d)).map fun p =>
    { x := p, y := 0, mipLevel := d.regularMipLevelsNum % 256 : TileCoord })

/-- The full shared descriptor computed by `InitTiledTexture` (including the
coordinate tables, which the source fills only for a newly created shared
descriptor — an equal existing descriptor has identical tables). -/
def initSharedDesc (d : TiledTextureDesc) : TiledTextureSharedDesc :=
  let fbW := feedbackTileSize d.textureWidth d.tileWidth
  let fbH := feedbackTileSize d.textureHeight d.tileHeight
  { regularTilesNum := regularTilesNumOf d
    packedTilesNum := packedTilesNumOf d
    regularMipLevelsNum := d.regularMipLevelsNum % 256
    packedMipLevelsNum := d.packedMipLevelsNum % 256
    tileWidth := d.tileWidth
    tileHeight := d.tileHeight
    feedbackGranularityX := d.tileWidth / fbW
    feedbackGranularityY := d.tileHeight / fbH
    feedbackTilesX := (d.textureWidth - 1) / fbW + 1
    feedbackTilesY := (d.textureHeight - 1) / fbH + 1
    mipLevelTilingDescs := mipLevelTilingDescsOf d
    tileIndexToTileCoord := tileCoordTableOf d
    tileIndexToLowerMipTileIndex := lowerMipTableOf d }

/-- `TiledTextureManagerImpl::GetTileIndex`. -/
def GetTileIndex (desc : TiledTextureSharedDesc) (c : TileCoord) : Nat :=
  if desc.regularMipLevelsNum ≤ c.mipLevel then
    desc.regularTilesNum
  else
    let tiling := desc.mipLevelTilingDescs.getD c.mipLevel default
    tiling.firstTileIndex + c.y * tiling.tilesX + c.x

/-! ### Tile allocator (`TiledTextureAllocator.cpp`)

A heap's free-slot stack has its top at the list end (`back`/`pop_back`);
`usedList` is the `std::set` kept in ascending order. -/

/-- Ascending-ordered insertion, modelling `std::set::insert`. -/
def insertSorted (v : Nat) : List Nat → List Nat
  | [] => [v]
  | a :: rest => if v ≤ a then v :: a :: rest else a :: insertSorted v rest

/-- `TiledHeap` state. -/
structure TiledHeap where
  tilesNum : Nat := 0
  heapId : Nat := 0
  freeTileIndices : List Nat := []
  usedList : List Nat := []
  allocations : List TextureAndTile := []
deriving DecidableEq, Repr, Inhabited

/-- `TiledHeap::TiledHeap(tilesNum, heapId)`: slots `0..tilesNum-1` free
(so the stack top, `back`, is the highest index). -/
def TiledHeap.new (tilesNum heapId : Nat) : TiledHeap :=
  { tilesNum := tilesNum
    heapId := heapId
    freeTileIndices := List.range tilesNum
    usedList := []
    allocations := List.replicate tilesNum default }

/-- `TiledHeap::FreeTilesNum`. -/
def TiledHeap.FreeTilesNum (h : TiledHeap) : Nat := h.freeTileIndices.length

/-- `TiledHeap::AllocateTile`: pops the back of the free stack (the most
recently freed slot), inserts it into the used set and records the
occupant.  The source calls `back()` on the stack unconditionally (callers
guarantee a free slot via `FreeTilesNum`); the unreachable empty case
returns the invalid allocation. -/
def TiledHeap.AllocateTile (h : TiledHeap) (textureId tileIndex : Nat) :
    TileAllocation × TiledHeap :=
  match h.freeTileIndices.getLast? with
  | none => (default, h)
  | some heapTileIndex =>
    ({ heapId := h.heapId, heapTileIndex := heapTileIndex, pHeap := some h.heapId },
     { h with
        freeTileIndices := h.freeTileIndices.dropLast
        usedList := insertSorted heapTileIndex h.usedList
        allocations := h.allocations.set heapTileIndex ⟨textureId, tileIndex⟩ })

/-- `TiledHeap::FreeTile`. -/
def TiledHeap.FreeTile (h : TiledHeap) (heapTileIndex : Nat) : TiledHeap :=
  { h with
      usedList := h.usedList.erase heapTileIndex
      freeTileIndices := h.freeTileIndices ++ [heapTileIndex]
      allocations := h.allocations.set heapTileIndex default }

/-- `TileAllocator` state. -/
structure TileAllocator where
  heaps : List TiledHeap := []
  heapSizeInTiles : Nat := 0
  tileSizeInBytes : Nat := 0
  allocatedTilesNum : Nat := 0
deriving DecidableEq, Repr, Inhabited

/-- `TileAllocator::AddHeap`. -/
def TileAllocator.AddHeap (a : TileAllocator) (heapId : Nat) : TileAllocator :=
  { a with heaps := a.heaps ++ [TiledHeap.new a.heapSizeInTiles heapId] }

/-- `TileAllocator::FindFreeHeap` as the index of the first heap with a
free slot (the source returns the `shared_ptr`; the index identifies it). -/
def TileAllocator.FindFreeHeap (a : TileAllocator) : Option Nat :=
  a.heaps.findIdx? fun h => h.FreeTilesNum ≠ 0

/-- `TileAllocator::AllocateTile`. -/
def TileAllocator.AllocateTile (a : TileAllocator) (textureId tileIndex : Nat) :
    TileAllocation × TileAllocator :=
  match a.FindFreeHeap with
  | none => (default, a)
  | some k =>
    let (alloc, h') := (a.heaps.getD k default).AllocateTile textureId tileIndex
    (alloc, { a with heaps := a.heaps.set k h',
                     allocatedTilesNum := a.allocatedTilesNum + 1 })

/-- `TileAllocator::FreeTile`: a null `pHeap` is a no-op; otherwise the
pointed-to heap frees the slot.  (The pointer is modelled by heap id; a
dangling pointer — removed heap — would be undefined behaviour in the
source and is a no-op here.) -/
def TileAllocator.FreeTile (a : TileAllocator) (alloc : TileAllocation) : TileAllocator :=
  match alloc.pHeap with
  | none => a
  | some hid =>
    match a.heaps.findIdx? (fun h => h.heapId = hid) with
    | none => a
    | some k =>
      { a with heaps := a.heaps.set k ((a.heaps.getD k default).FreeTile alloc.heapTileIndex)
               allocatedTilesNum := a.allocatedTilesNum - 1 }

/-- `TileAllocator::GetTotalTilesNum`. -/
def TileAllocator.GetTotalTilesNum (a : TileAllocator) : Nat :=
  a.heaps.length * a.heapSizeInTiles

/-- `TileAllocator::GetFreeTilesNum` (`uint32_t` subtraction; under the
allocator's invariant `allocatedTilesNum ≤ totalTilesNum` the truncated
`Nat` subtraction agrees with the source). -/
def TileAllocator.GetFreeTilesNum (a : TileAllocator) : Nat :=
  a.GetTotalTilesNum - a.allocatedTilesNum

/-! ### Manager state (`TiledTextureManagerImpl.h`) -/

/-- `TiledTextureState` (per-texture mutable state).  `lastRequestedTime`
holds `float` timestamps, modelled as integers (`resize` zero-fills, so
out-of-range reads default to `0`). -/
structure TiledTextureState where
  allocatedUnpackedTilesNum : Nat := 0
  descIndex : Nat := 0
  lastRequestedTime : List ℤ := []
  tileAllocations : List TileAllocation := []
  tilesToMap : List Nat := []
  tilesToUnmap : List Nat := []
  tileStates : List TileState := []
  requestedTilesNum : Nat := 0
  requestedBits : List Bool := []
deriving DecidableEq, Repr, Inhabited

/-- The member state of `TiledTextureManagerImpl`.  The two LRU queues are
lists with the front at the head. -/
structure TiledTextureManagerImpl where
  heapTilesCapacity : Nat := 256
  numExtraStandbyTiles : Nat := 1000
  tileAllocator : TileAllocator := {}
  tiledTextures : List TiledTextureState := []
  tiledTextureSharedDescs : List TiledTextureSharedDesc := []
  tiledTextureFreelist : List Nat := []
  requestedQueue : List TextureAndTile := []
  standbyQueue : List TextureAndTile := []
  totalTilesNum : Nat := 0
  activeTilesNum : Nat := 0
deriving DecidableEq, Repr, Inhabited

/-- `CreateTiledTextureManager` / the constructor: a fresh manager with a
`TileAllocator(heapTilesCapacity, 65536)`. -/
def createTiledTextureManager (heapTilesCapacity : Nat) : TiledTextureManagerImpl :=
  { heapTilesCapacity := heapTilesCapacity
    tileAllocator := { heapSizeInTiles := heapTilesCapacity, tileSizeInBytes := 65536 } }

def getTexture (m : TiledTextureManagerImpl) (textureId : Nat) : TiledTextureState :=
  m.tiledTextures.getD textureId default

def setTexture (m : TiledTextureManagerImpl) (textureId : Nat)
    (ts : TiledTextureState) : TiledTextureManagerImpl :=
  { m with tiledTextures := m.tiledTextures.set textureId ts }

def getSharedDesc (m : TiledTextureManagerImpl) (descIndex : Nat) : TiledTextureSharedDesc :=
  m.tiledTextureSharedDescs.getD descIndex default

/-- The recorded state of one tile (`tileStates[tileIndex]`). -/
def stateOf (m : TiledTextureManagerImpl) (textureId tileIndex : Nat) : TileState :=
  (getTexture m textureId).tileStates.getD tileIndex .Free

/-! ### `TiledTextureManagerImpl::TransitionTile`

The release build performs no validity checks (all `assert`s sit under
`#if _DEBUG`); the function is exactly: erase from the standby queue when
the previous state is `Standby`, run the `switch (newState)` side effects,
write the new state, and report allocation failure.  The recursive eviction
call in the `Allocated` case always has `TileState_Free` as target, so it
is split off as `TransitionTileToFree`. -/

/-- Lines 638–643: remove the tile from the standby queue if its current
state is `Standby`. -/
def transitionPrologue (m : TiledTextureManagerImpl) (textureId tileIndex : Nat) :
    TiledTextureManagerImpl :=
  if stateOf m textureId tileIndex = .Standby then
    { m with standbyQueue := m.standbyQueue.erase ⟨textureId, tileIndex⟩ }
  else m

/-- Line 701: `tileState = newState`. -/
def transitionSetState (m : TiledTextureManagerImpl) (textureId tileIndex : Nat)
    (s : TileState) : TiledTextureManagerImpl :=
  let ts := getTexture m textureId
  setTexture m textureId { ts with tileStates := ts.tileStates.set tileIndex s }

/-- The `TileState_Free` case of the switch (lines 651–660) followed by the
state write. -/
def freeCaseActions (m : TiledTextureManagerImpl) (textureId tileIndex : Nat) :
    TiledTextureManagerImpl :=
  let ts := getTexture m textureId
  let desc := getSharedDesc m ts.descIndex
  let m1 := { m with
      tileAllocator := m.tileAllocator.FreeTile (ts.tileAllocations.getD tileIndex default)
      activeTilesNum := m.activeTilesNum - 1 }
  let ts1 := { ts with
      tileAllocations := ts.tileAllocations.set tileIndex default
      tilesToUnmap := ts.tilesToUnmap ++ [tileIndex]
      allocatedUnpackedTilesNum :=
        if tileIndex < desc.regularTilesNum then ts.allocatedUnpackedTilesNum - 1
        else ts.allocatedUnpackedTilesNum }
  transitionSetState (setTexture m1 textureId ts1) textureId tileIndex .Free

/-- `TransitionTile(textureId, tileIndex, TileState_Free)` (always succeeds). -/
def TransitionTileToFree (m : TiledTextureManagerImpl) (textureId tileIndex : Nat) :
    TiledTextureManagerImpl :=
  freeCaseActions (transitionPrologue m textureId tileIndex) textureId tileIndex

/-- `TiledTextureManagerImpl::TransitionTile`; the `Bool` is the source's
return value (`false` exactly on allocation failure). -/
def TransitionTile (m : TiledTextureManagerImpl) (textureId tileIndex : Nat)
    (newState : TileState) : Bool × TiledTextureManagerImpl :=
  match newState with
  | .Free => (true, TransitionTileToFree m textureId tileIndex)
  | .Requested =>
    let m1 := transitionPrologue m textureId tileIndex
    let m2 := { m1 with
        requestedQueue := m1.requestedQueue ++ [⟨textureId, tileIndex⟩]
        activeTilesNum := m1.activeTilesNum + 1 }
    (true, transitionSetState m2 textureId tileIndex .Requested)
  | .Allocated =>
    let m1 := transitionPrologue m textureId tileIndex
    let m2 :=
      match m1.standbyQueue with
      | [] => m1
      | f :: _ =>
        if m1.tileAllocator.GetFreeTilesNum = 0 then
          TransitionTileToFree m1 f.textureId f.tileIndex
        else m1
    let (alloc, ta) := m2.tileAllocator.AllocateTile textureId tileIndex
    if alloc.IsValid then
      let m3 := { m2 with tileAllocator := ta }
      let ts := getTexture m3 textureId
      let desc := getSharedDesc m3 ts.descIndex
      let ts1 := { ts with
          tileAllocations := ts.tileAllocations.set tileIndex alloc
          tilesToMap := ts.tilesToMap ++ [tileIndex]
          allocatedUnpackedTilesNum :=
            if tileIndex < desc.regularTilesNum then ts.allocatedUnpackedTilesNum + 1
            else ts.allocatedUnpackedTilesNum }
      (true, transitionSetState (setTexture m3 textureId ts1) textureId tileIndex .Allocated)
    else
      (false, m2)
  | .Mapped =>
    let m1 := transitionPrologue m textureId tileIndex
    (true, transitionSetState m1 textureId tileIndex .Mapped)
  | .Standby =>
    let m1 := transitionPrologue m textureId tileIndex
    let m2 := { m1 with standbyQueue := m1.standbyQueue ++ [⟨textureId, tileIndex⟩] }
    (true, transitionSetState m2 textureId tileIndex .Standby)

/-! ### Texture registration (`AddTiledTexture` / `InitTiledTexture` /
`RemoveTiledTexture`) -/

/-- The `memcmp` over the scalar prefix of `TiledTextureSharedDesc` (up to
and including `feedbackTilesY`); the structs are zero-initialized so the
comparison is field-wise equality. -/
def sharedDescScalarEq (a b : TiledTextureSharedDesc) : Bool :=
  a.regularTilesNum == b.regularTilesNum &&
  a.packedTilesNum == b.packedTilesNum &&
  a.regularMipLevelsNum == b.regularMipLevelsNum &&
  a.packedMipLevelsNum == b.packedMipLevelsNum &&
  a.tileWidth == b.tileWidth &&
  a.tileHeight == b.tileHeight &&
  a.feedbackGranularityX == b.feedbackGranularityX &&
  a.feedbackGranularityY == b.feedbackGranularityY &&
  a.feedbackTilesX == b.feedbackTilesX &&
  a.feedbackTilesY == b.feedbackTilesY

/-- `TiledTextureManagerImpl::InitTiledTexture`.  The shared-descriptor
search compares the scalar prefix and the tiling array; since the
coordinate tables are functions of exactly those fields, carrying them
inside `initSharedDesc` preserves the source's behaviour (the source fills
them only for a newly pushed descriptor). -/
def InitTiledTexture (m : TiledTextureManagerImpl) (textureId : Nat)
    (d : TiledTextureDesc) : TiledTextureManagerImpl :=
  let desc := initSharedDesc d
  let tilesNum := desc.regularTilesNum + desc.packedTilesNum
  let ts0 := getTexture m textureId
  let ts1 := { ts0 with
      lastRequestedTime := List.replicate tilesNum 0
      tileAllocations := List.replicate tilesNum default
      requestedTilesNum := desc.packedTilesNum
      tileStates := List.replicate tilesNum TileState.Free }
  let found := m.tiledTextureSharedDescs.findIdx? fun sd =>
      sharedDescScalarEq sd desc && sd.mipLevelTilingDescs == desc.mipLevelTilingDescs
  let mts : TiledTextureManagerImpl × TiledTextureState :=
    match found with
    | some i => (m, { ts1 with descIndex := i })
    | none =>
      ({ m with tiledTextureSharedDescs := m.tiledTextureSharedDescs ++ [desc] },
       { ts1 with descIndex := m.tiledTextureSharedDescs.length })
  let m2 := setTexture mts.1 textureId mts.2
  (List.range d.packedTilesNum).foldl
    (fun mm i => (TransitionTile mm textureId (desc.regularTilesNum + i) .Requested).2) m2

/-- `TiledTextureManagerImpl::AddTiledTexture`: pops the back of the id
freelist (or appends a fresh slot), initializes the texture, and adds its
tile count to `m_totalTilesNum`. -/
def AddTiledTexture (m : TiledTextureManagerImpl) (d : TiledTextureDesc) :
    Nat × TiledTextureManagerImpl :=
  let idm : Nat × TiledTextureManagerImpl :=
    match m.tiledTextureFreelist.getLast? with
    | some id => (id, { m with tiledTextureFreelist := m.tiledTextureFreelist.dropLast })
    | none => (m.tiledTextures.length, { m with tiledTextures := m.tiledTextures ++ [default] })
  let m1 := InitTiledTexture idm.2 idm.1 d
  let desc := getSharedDesc m1 (getTexture m1 idm.1).descIndex
  (idm.1, { m1 with totalTilesNum := m1.totalTilesNum + desc.packedTilesNum + desc.regularTilesNum })

/-- `TiledTextureManagerImpl::RemoveTiledTexture`: frees every recorded
allocation, erases the queue entries of the **regular** tiles only, resets
the per-texture state and pushes the id onto the freelist. -/
def RemoveTiledTexture (m : TiledTextureManagerImpl) (textureId : Nat) :
    TiledTextureManagerImpl :=
  let ts := getTexture m textureId
  let desc := getSharedDesc m ts.descIndex
  let m1 := ts.tileAllocations.foldl
    (fun mm a => { mm with
        tileAllocator := mm.tileAllocator.FreeTile a
        activeTilesNum := mm.activeTilesNum - 1 }) m
  let m2 := (List.range desc.regularTilesNum).foldl
    (fun mm t => { mm with
        requestedQueue := mm.requestedQueue.erase ⟨textureId, t⟩
        standbyQueue := mm.standbyQueue.erase ⟨textureId, t⟩ }) m1
  let m3 := { m2 with
      totalTilesNum := m2.totalTilesNum - (desc.packedTilesNum + desc.regularTilesNum) }
  let m4 := setTexture m3 textureId default
  { m4 with tiledTextureFreelist := m4.tiledTextureFreelist ++ [textureId] }

/-! ### Sampler-feedback decoding (`UpdateWithSamplerFeedback`) -/

/-- `SamplerFeedbackDesc` (public header); the byte buffer is a function
from cell index to byte value. -/
structure SamplerFeedbackDesc where
  pMinMipData : Option (Nat → Nat) := none
  streamedMipLevelsNum : Nat := 0
  mipLevelBias : Int := 0

/-- Line 126: `tileCoord.mipLevel = (uint32_t)std::max(mipLevel +
samplerFeedbackDesc.mipLevelBias, 0)` stored into the `uint8_t` field,
hence the reduction `% 256`. -/
def storedMipLevel (mipLevel : Nat) (bias : Int) : Nat :=
  (max ((mipLevel : Int) + bias) 0).toNat % 256

/-- Lines 125–131: the tile index requested by feedback cell `i`. -/
def decodeCellTileIndex (desc : TiledTextureSharedDesc) (i mip : Nat) : Nat :=
  GetTileIndex desc
    { x := ((i % desc.feedbackTilesX) / desc.feedbackGranularityX) >>> mip
      y := ((i / desc.feedbackTilesX) / desc.feedbackGranularityY) >>> mip
      mipLevel := mip }

/-- The decode loop (lines 110–137).  `first` is the source's
`firstTileIndex` with `UINT32_MAX` as the "none yet" sentinel.  The batch
fast-path reads eight bytes as a `uint64` and compares against all-ones,
which for byte data is exactly the eight equalities below. -/
def DecodeLoop (desc : TiledTextureSharedDesc) (data : Nat → Nat) (bias : Int)
    (useBatch : Bool) (n : Nat) : Nat → Nat → List Bool → Nat → List Bool × Nat
  | 0, _, bits, first => (bits, first)
  | fuel + 1, i, bits, first =>
    if i < n then
      if useBatch ∧ i % 8 = 0 ∧ data i = 255 ∧ data (i + 1) = 255 ∧ data (i + 2) = 255 ∧
          data (i + 3) = 255 ∧ data (i + 4) = 255 ∧ data (i + 5) = 255 ∧
          data (i + 6) = 255 ∧ data (i + 7) = 255 then
        DecodeLoop desc data bias useBatch n fuel (i + 8) bits first
      else
        if data i ≠ 255 then
          DecodeLoop desc data bias useBatch n fuel (i + 1)
            (setBit bits (decodeCellTileIndex desc i (storedMipLevel (data i) bias)))
            (min first (decodeCellTileIndex desc i (storedMipLevel (data i) bias)))
        else
          DecodeLoop desc data bias useBatch n fuel (i + 1) bits first
    else (bits, first)

/-- The mip-chain propagation pass (lines 139–143): ascending indices from
`firstTileIndex` up to the first tile of the last regular mip. -/
def PropagateLoop (desc : TiledTextureSharedDesc) (lastTileIndex first : Nat)
    (bits : List Bool) : List Bool :=
  (List.range' first (lastTileIndex - first)).foldl
    (fun b t =>
      if getBit b t then setBit b (desc.tileIndexToLowerMipTileIndex.getD t 0) else b)
    bits

/-- The `timeDelta >= timeout` comparison (line 570) for a possibly
infinite timeout: a finite delta is never `≥ +inf`, exactly as for IEEE
floats. -/
def timeoutElapsed (timeout : Option ℤ) (timeDelta : ℤ) : Bool :=
  match timeout with
  | none => false
  | some t => t ≤ timeDelta

/-- The per-tile body of the reconciliation loop in `UpdateTiledTexture`
(lines 547–580).  The source re-tests `TileState_Mapped` inside the timeout
branch, which is redundant (the state cannot have changed in between) and
is therefore collapsed here. -/
def updateOneTile (m : TiledTextureManagerImpl) (textureId : Nat)
    (requestedBits : List Bool) (timestamp : ℤ) (timeout : Option ℤ)
    (tileIndex : Nat) : TiledTextureManagerImpl :=
  let ts := getTexture m textureId
  if getBit requestedBits tileIndex then
    let ts1 := { ts with
        lastRequestedTime := ts.lastRequestedTime.set tileIndex timestamp
        requestedTilesNum := ts.requestedTilesNum + 1 }
    let m1 := setTexture m textureId ts1
    if ts.tileStates.getD tileIndex .Free = .Standby then
      (TransitionTile m1 textureId tileIndex .Mapped).2
    else if ts.tileStates.getD tileIndex .Free = .Free then
      (TransitionTile m1 textureId tileIndex .Requested).2
    else m1
  else if ts.tileStates.getD tileIndex .Free = .Mapped then
    if timeoutElapsed timeout (timestamp - ts.lastRequestedTime.getD tileIndex 0) then
      (TransitionTile m textureId tileIndex .Standby).2
    else m
  else m

/-- `TiledTextureManagerImpl::UpdateTiledTexture` (lines 532–582). -/
def UpdateTiledTexture (m : TiledTextureManagerImpl) (textureId : Nat)
    (requestedBits : List Bool) (first : Nat) (timestamp : ℤ)
    (timeout : Option ℤ) : TiledTextureManagerImpl :=
  let ts := getTexture m textureId
  let desc := getSharedDesc m ts.descIndex
  let m1 := setTexture m textureId
    { ts with requestedBits := requestedBits, requestedTilesNum := desc.packedTilesNum }
  if desc.regularMipLevelsNum = 0 then m1
  else
    if first ≠ UINT32MAX ∨ (getTexture m1 textureId).allocatedUnpackedTilesNum ≠ 0 then
      (List.range desc.regularTilesNum).foldl
        (fun mm t => updateOneTile mm textureId requestedBits timestamp timeout t) m1
    else m1

/-- The initial request bitset (lines 98–102): all clear except the bits
of the packed tiles. -/
def packedBitsInit (desc : TiledTextureSharedDesc) : List Bool :=
  (List.range desc.packedTilesNum).foldl
    (fun b p => setBit b (desc.regularTilesNum + p))
    (bitArrayInit (desc.regularTilesNum + desc.packedTilesNum))

/-- Line 140: the propagation bound — the first tile index of the last
regular mip level (`0` when there are fewer than two regular levels). -/
def lastRegularFirstTile (desc : TiledTextureSharedDesc) : Nat :=
  if 1 < desc.regularMipLevelsNum then
    (desc.mipLevelTilingDescs.getD (desc.regularMipLevelsNum - 1) default).firstTileIndex
  else 0

/-- Lines 104–144: the full decode of one feedback buffer into the
request bitset and `firstTileIndex` (a null buffer decodes nothing). -/
def decodeFeedbackBits (desc : TiledTextureSharedDesc) (sf : SamplerFeedbackDesc) :
    List Bool × Nat :=
  match sf.pMinMipData with
  | none => (packedBitsInit desc, UINT32MAX)
  | some data =>
    let n := desc.feedbackTilesX * desc.feedbackTilesY
    let df := DecodeLoop desc data sf.mipLevelBias (n % 8 == 0) n n 0
      (packedBitsInit desc) UINT32MAX
    (PropagateLoop desc (lastRegularFirstTile desc) df.2 df.1, df.2)

/-- `TiledTextureManagerImpl::UpdateWithSamplerFeedback` (lines 86–147). -/
def UpdateWithSamplerFeedback (m : TiledTextureManagerImpl) (textureId : Nat)
    (sf : SamplerFeedbackDesc) (timestamp : ℤ) (timeout : Option ℤ) :
    TiledTextureManagerImpl :=
  let ts := getTexture m textureId
  let desc := getSharedDesc m ts.descIndex
  let m1 := setTexture m textureId { ts with requestedTilesNum := desc.packedTilesNum }
  if desc.regularMipLevelsNum = 0 then m1
  else
    let m2 := setTexture m1 textureId
      { getTexture m1 textureId with tilesToMap := [], tilesToUnmap := [] }
    let decoded := decodeFeedbackBits desc sf
    UpdateTiledTexture m2 textureId decoded.1 decoded.2 timestamp timeout

/-! ### Allocation draining, mapping commits, MinMip output -/

/-- `TiledTextureManagerImpl::AddHeap` (delegates to the allocator). -/
def AddHeap (m : TiledTextureManagerImpl) (heapId : Nat) : TiledTextureManagerImpl :=
  { m with tileAllocator := m.tileAllocator.AddHeap heapId }

/-- The body of `AllocateRequestedTiles` with explicit fuel.  Each
successful iteration pops one queue entry and the `Allocated` transition
never pushes onto the requested queue, so `m.requestedQueue.length` bounds
the iteration count exactly and the loop is faithful to the source's
`while`. -/
def allocateLoop : Nat → TiledTextureManagerImpl → TiledTextureManagerImpl
  | 0, m => m
  | fuel + 1, m =>
    match m.requestedQueue with
    | [] => m
    | e :: _ =>
      let r := TransitionTile m e.textureId e.tileIndex .Allocated
      if r.1 then
        allocateLoop fuel { r.2 with requestedQueue := r.2.requestedQueue.tail }
      else r.2

/-- `TiledTextureManagerImpl::AllocateRequestedTiles` (lines 251–261). -/
def AllocateRequestedTiles (m : TiledTextureManagerImpl) : TiledTextureManagerImpl :=
  allocateLoop m.requestedQueue.length m

/-- `TiledTextureManagerImpl::GetTilesToMap`: returns and clears the
pending list. -/
def GetTilesToMap (m : TiledTextureManagerImpl) (textureId : Nat) :
    List Nat × TiledTextureManagerImpl :=
  let ts := getTexture m textureId
  (ts.tilesToMap, setTexture m textureId { ts with tilesToMap := [] })

/-- `TiledTextureManagerImpl::GetTilesToUnmap`. -/
def GetTilesToUnmap (m : TiledTextureManagerImpl) (textureId : Nat) :
    List Nat × TiledTextureManagerImpl :=
  let ts := getTexture m textureId
  (ts.tilesToUnmap, setTexture m textureId { ts with tilesToUnmap := [] })

/-- `TiledTextureManagerImpl::UpdateTilesMapping` (lines 272–278): one
`TransitionTile(..., TileState_Mapped)` per listed tile. -/
def UpdateTilesMapping (m : TiledTextureManagerImpl) (textureId : Nat)
    (tileIndices : List Nat) : TiledTextureManagerImpl :=
  tileIndices.foldl (fun mm t => (TransitionTile mm textureId t .Mapped).2) m

/-- The footprint write of one resident tile in `WriteMinMipData`
(lines 308–325): the tile's mip-0 rectangle, clipped to the mip-0 grid,
with the `data[index] == mipLevel + 1` guard. -/
def minMipFootprintWrite (desc : TiledTextureSharedDesc) (tileIndex : Nat)
    (data : List Nat) : List Nat :=
  let coord := desc.tileIndexToTileCoord.getD tileIndex default
  let mipLevel := coord.mipLevel
  let tileSize := 1 <<< mipLevel
  let xStart := coord.x <<< mipLevel
  let yStart := coord.y <<< mipLevel
  let tX0 := (desc.mipLevelTilingDescs.getD 0 default).tilesX
  let tY0 := (desc.mipLevelTilingDescs.getD 0 default).tilesY
  (List.range' yStart tileSize).foldl
    (fun dy y =>
      (List.range' xStart tileSize).foldl
        (fun dx x =>
          if tX0 ≤ x ∨ tY0 ≤ y then dx
          else
            let index := y * tX0 + x
            if dx.getD index 0 = mipLevel + 1 then dx.set index mipLevel else dx)
        dy)
    data

/-- One iteration of the `WriteMinMipData` tile loop (lines 303–326):
tiles not in `Mapped`/`Standby` are skipped. -/
def minMipTileStep (desc : TiledTextureSharedDesc) (tileStates : List TileState)
    (data : List Nat) (tileIndex : Nat) : List Nat :=
  if tileStates.getD tileIndex .Free ≠ .Mapped ∧
      tileStates.getD tileIndex .Free ≠ .Standby then data
  else minMipFootprintWrite desc tileIndex data

/-- `TiledTextureManagerImpl::WriteMinMipData` (lines 289–328) as a
function of the texture's shared descriptor and tile states; the output is
the caller's byte buffer.  The tile loop runs over ascending
`tileIndex` (`for (uint32_t tileIndex = 0; tileIndex <
desc.regularTilesNum; ++tileIndex)`). -/
def WriteMinMipData (desc : TiledTextureSharedDesc) (tileStates : List TileState) :
    List Nat :=
  let tiling0 := desc.mipLevelTilingDescs.getD 0 default
  let minMipTilesNum := if desc.regularTilesNum ≠ 0 then tiling0.tilesX * tiling0.tilesY else 1
  let data := List.replicate minMipTilesNum desc.regularMipLevelsNum
  if desc.regularTilesNum ≠ 0 then
    (List.range desc.regularTilesNum).foldl (minMipTileStep desc tileStates) data
  else data

/-! ### Concrete inputs used by the claim theorems -/

/-- The texture of spec scenario 6 / claim C1: 1024×1024 with 256×256
tiles, regular mips 4×4, 2×2, 1×1, one packed tile.  Regular tile indices:
0–15 (mip 0), 16–19 (mip 1), 20 (mip 2). -/
def mmDesc : TiledTextureDesc :=
  { textureWidth := 1024, textureHeight := 1024,
    tiledLevelDescs := [⟨4, 4⟩, ⟨2, 2⟩, ⟨1, 1⟩],
    regularMipLevelsNum := 3, packedMipLevelsNum := 1, packedTilesNum := 1,
    tileWidth := 256, tileHeight := 256 }

def mmShared : TiledTextureSharedDesc := initSharedDesc mmDesc

/-- Claim C1's resident set: the single mip-2 tile (index 20) and three of
the four mip-1 tiles (16, 17, 18) are Mapped; mip-1 tile 19 and all mip-0
tiles are Free. -/
def mmStates : List TileState :=
  List.replicate 16 TileState.Free ++ [.Mapped, .Mapped, .Mapped, .Free, .Mapped]

/-- 4×4 texture with 2×2 tiles: regular mips 2×2 and 1×1 (five regular
tiles), one packed tile.  Feedback grid is 2×2. -/
def smallDesc : TiledTextureDesc :=
  { textureWidth := 4, textureHeight := 4, tiledLevelDescs := [⟨2, 2⟩, ⟨1, 1⟩],
    regularMipLevelsNum := 2, packedMipLevelsNum := 1, packedTilesNum := 1,
    tileWidth := 2, tileHeight := 2 }

def smallShared : TiledTextureSharedDesc := initSharedDesc smallDesc

/-- A fresh manager (heap capacity 8) holding the 4×4 texture as id 0. -/
def smallMgr : TiledTextureManagerImpl :=
  (AddTiledTexture (createTiledTextureManager 8) smallDesc).2

/-- Feedback for claim C4: cell 0 samples mip byte 1, the rest report no
sample, with `mipLevelBias = +255`. -/
def sfBias255 : SamplerFeedbackDesc :=
  { pMinMipData := some fun i => if i = 0 then 1 else 255, mipLevelBias := 255 }

def mgrC4 : TiledTextureManagerImpl :=
  UpdateWithSamplerFeedback smallMgr 0 sfBias255 0 (some 1000)

/-- A texture with no regular mips and one packed tile (claim C5). -/
def packedOnlyDesc : TiledTextureDesc :=
  { textureWidth := 2, textureHeight := 2, tiledLevelDescs := [],
    regularMipLevelsNum := 0, packedMipLevelsNum := 1, packedTilesNum := 1,
    tileWidth := 2, tileHeight := 2 }

/-- Manager after `AddTiledTexture(packedOnlyDesc)` (heap capacity 1): the
packed tile sits in the requested queue in state `Requested`. -/
def mgrC5add : TiledTextureManagerImpl :=
  (AddTiledTexture (createTiledTextureManager 1) packedOnlyDesc).2

/-- ... and after `RemoveTiledTexture(0)`. -/
def mgrC5 : TiledTextureManagerImpl := RemoveTiledTexture mgrC5add 0

/-- A 2×2 texture with a single regular tile and no packed tiles. -/
def oneTileDesc : TiledTextureDesc :=
  { textureWidth := 2, textureHeight := 2, tiledLevelDescs := [⟨1, 1⟩],
    regularMipLevelsNum := 1, packedMipLevelsNum := 0, packedTilesNum := 0,
    tileWidth := 2, tileHeight := 2 }

/-! The claim C6 call sequence.  Every call below respects the documented
caller contract: feedback updates, heap registration, allocation draining,
`getTilesToMap` followed by `updateTilesMapping` on exactly the returned
list.  Texture id 0 is first used for `packedOnlyDesc`, removed (which —
claim C5 — leaves the packed tile's entry in the requested queue), then
reused for `oneTileDesc`, whose single regular tile produces a duplicate
queue entry. -/

/-- Step 4: re-add a texture; the freed id 0 is reused. -/
def c6m4 : TiledTextureManagerImpl := (AddTiledTexture mgrC5 oneTileDesc).2

/-- Feedback hitting tile 0 of the one-tile texture. -/
def c6sfHit : SamplerFeedbackDesc :=
  { pMinMipData := some fun i => if i = 0 then 0 else 255 }

/-- All-0xFF feedback (no samples). -/
def sfAllFF : SamplerFeedbackDesc := { pMinMipData := some fun _ => 255 }

/-- Step 5: the update pushes (0,0) again — a duplicate of the stale entry. -/
def c6m5 : TiledTextureManagerImpl := UpdateWithSamplerFeedback c6m4 0 c6sfHit 0 (some 1000)

/-- Step 6: one heap of capacity 1. -/
def c6m6 : TiledTextureManagerImpl := AddHeap c6m5 1

/-- Step 7: draining allocates tile 0 once; the duplicate entry fails
(heap full) and stays queued. -/
def c6m7 : TiledTextureManagerImpl := AllocateRequestedTiles c6m6

def c6maps : List Nat × TiledTextureManagerImpl := GetTilesToMap c6m7 0

/-- Step 8: the caller maps the returned tiles and commits. -/
def c6m8 : TiledTextureManagerImpl := UpdateTilesMapping c6maps.2 0 c6maps.1

/-- Step 9: an idle frame at time 10 with timeout 0 moves tile 0
(Mapped, unrequested) to Standby. -/
def c6m9 : TiledTextureManagerImpl := UpdateWithSamplerFeedback c6m8 0 sfAllFF 10 (some 0)

/-- Step 10: draining again pops the stale duplicate: the `Allocated`
transition erases (0,0) from the standby queue, then allocation fails and
the state write is skipped — the tile stays `Standby` but has left the
standby queue. -/
def c6m10 : TiledTextureManagerImpl := AllocateRequestedTiles c6m9

/-- A degenerate 1×1-texel texture (claim C10's division-by-zero case). -/
def degenerateDesc : TiledTextureDesc :=
  { textureWidth := 1, textureHeight := 1, tiledLevelDescs := [⟨1, 1⟩],
    regularMipLevelsNum := 1, packedMipLevelsNum := 0, packedTilesNum := 0,
    tileWidth := 256, tileHeight := 256 }

/-- Manager with one texture whose only tile is `Free` (claim C7). -/
def c7mgr : TiledTextureManagerImpl :=
  (AddTiledTexture (createTiledTextureManager 1) oneTileDesc).2

/-- `updateTilesMapping` applied to that `Free` tile. -/
def c7mgrAfter : TiledTextureManagerImpl := UpdateTilesMapping c7mgr 0 [0]

/-! ## Helper lemmas -/

lemma shiftRight_le_self (x k : Nat) : x >>> k ≤ x := by
  rw [Nat.shiftRight_eq_div_pow]
  exact Nat.div_le_self _ _

lemma le_or_left_nat (a b : Nat) : a ≤ a ||| b := by
  induction a using Nat.strong_induction_on generalizing b with
  | _ a ih =>
    rcases Nat.eq_zero_or_pos a with rfl | ha
    · exact Nat.zero_le _
    · have hdiv := ih (a / 2) (Nat.div_lt_self ha (by norm_num)) (b / 2)
      have hor2 : (a ||| b) / 2 = a / 2 ||| b / 2 := Nat.or_div_two
      have h1 := Nat.div_add_mod a 2
      have h2 := Nat.div_add_mod (a ||| b) 2
      rw [hor2] at h2
      rcases Nat.mod_two_eq_zero_or_one a with h | h
      · omega
      · have hm : (a ||| b) % 2 = 1 := Nat.or_mod_two_eq_one.mpr (Or.inl h)
        omega

lemma le_orShift (y k : Nat) : y ≤ orShift y k := le_or_left_nat y _

lemma orShift_lt_two_pow {y : Nat} (k : Nat) (hy : y < 2 ^ n) :
    orShift y k < 2 ^ n :=
  Nat.or_lt_two_pow hy (Nat.lt_of_le_of_lt (shiftRight_le_self y k) hy)

lemma PrevPowerOf2_le (x : Nat) : PrevPowerOf2 x ≤ x := by
  rcases Nat.eq_zero_or_pos x with rfl | hx
  · decide
  · show orShift (orShift (orShift (orShift (orShift x 1) 2) 4) 8) 16 -
        (orShift (orShift (orShift (orShift (orShift x 1) 2) 4) 8) 16 >>> 1) ≤ x
    set n := x.size with hn
    have hxlt : x < 2 ^ n := Nat.lt_size_self x
    have h5 : orShift (orShift (orShift (orShift (orShift x 1) 2) 4) 8) 16 < 2 ^ n :=
      orShift_lt_two_pow _ (orShift_lt_two_pow _ (orShift_lt_two_pow _
        (orShift_lt_two_pow _ (orShift_lt_two_pow _ hxlt))))
    have hszpos : 0 < n := hn ▸ Nat.size_pos.mpr hx
    have hlow : 2 ^ (n - 1) ≤ x := Nat.lt_size.mp (by omega)
    have h2x : 2 ^ n ≤ 2 * x := by
      have : (2 : Nat) ^ n = 2 * 2 ^ (n - 1) := by
        rw [← pow_succ']
        congr 1
        omega
      omega
    have hdiv : orShift (orShift (orShift (orShift (orShift x 1) 2) 4) 8) 16 >>> 1 =
        orShift (orShift (orShift (orShift (orShift x 1) 2) 4) 8) 16 / 2 := by
      rw [Nat.shiftRight_eq_div_pow]
    omega

lemma PrevPowerOf2_pos {x : Nat} (hx : 0 < x) : 0 < PrevPowerOf2 x := by
  show 0 < orShift (orShift (orShift (orShift (orShift x 1) 2) 4) 8) 16 -
      (orShift (orShift (orShift (orShift (orShift x 1) 2) 4) 8) 16 >>> 1)
  have hxle : x ≤ orShift (orShift (orShift (orShift (orShift x 1) 2) 4) 8) 16 :=
    le_trans (le_orShift x 1) (le_trans (le_orShift _ 2) (le_trans (le_orShift _ 4)
      (le_trans (le_orShift _ 8) (le_orShift _ 16))))
  have hdiv : orShift (orShift (orShift (orShift (orShift x 1) 2) 4) 8) 16 >>> 1 =
      orShift (orShift (orShift (orShift (orShift x 1) 2) 4) 8) 16 / 2 := by
    rw [Nat.shiftRight_eq_div_pow]
  omega

/-- The loop result does not depend on the fuel once the fuel covers the
start value: the fuel-free while loop is well defined. -/
lemma feedbackTileSizeLoop_congr (halfTexSize : Nat) :
    ∀ {fuel₁ fuel₂ v : Nat}, v ≤ fuel₁ → v ≤ fuel₂ →
      feedbackTileSizeLoop halfTexSize fuel₁ v = feedbackTileSizeLoop halfTexSize fuel₂ v := by
  intro fuel₁
  induction fuel₁ with
  | zero =>
    intro fuel₂ v h1 h2
    have hv : v = 0 := Nat.le_zero.mp h1
    subst hv
    cases fuel₂ with
    | zero => rfl
    | succ f => simp [feedbackTileSizeLoop]
  | succ f1 ih =>
    intro fuel₂ v h1 h2
    cases fuel₂ with
    | zero =>
      have hv : v = 0 := Nat.le_zero.mp h2
      subst hv
      simp [feedbackTileSizeLoop]
    | succ f2 =>
      show (if halfTexSize < v then feedbackTileSizeLoop halfTexSize f1 (PrevPowerOf2 (v - 1)) else v) =
        (if halfTexSize < v then feedbackTileSizeLoop halfTexSize f2 (PrevPowerOf2 (v - 1)) else v)
      by_cases hlt : halfTexSize < v
      · simp only [if_pos hlt]
        have hdec : PrevPowerOf2 (v - 1) ≤ v - 1 := PrevPowerOf2_le _
        exact ih (by omega) (by omega)
      · simp only [if_neg hlt]

/-- The decode loop's result does not depend on the fuel once the fuel
covers the remaining cell count (the index advances by at least one per
step), so fuel `n` from index `0` gives the source loop's result. -/
lemma DecodeLoop_congr (desc : TiledTextureSharedDesc) (data : Nat → Nat) (bias : Int)
    (useBatch : Bool) (n : Nat) :
    ∀ {fuel₁ fuel₂ i : Nat} {bits : List Bool} {first : Nat},
      n - i ≤ fuel₁ → n - i ≤ fuel₂ →
      DecodeLoop desc data bias useBatch n fuel₁ i bits first =
        DecodeLoop desc data bias useBatch n fuel₂ i bits first := by
  intro fuel₁
  induction fuel₁ with
  | zero =>
    intro fuel₂ i bits first h1 h2
    have hi : n ≤ i := by omega
    cases fuel₂ with
    | zero => rfl
    | succ f2 =>
      show (bits, first) = if i < n then _ else (bits, first)
      rw [if_neg (by omega)]
  | succ f1 ih =>
    intro fuel₂ i bits first h1 h2
    cases fuel₂ with
    | zero =>
      have hi : n ≤ i := by omega
      show (if i < n then _ else (bits, first)) = (bits, first)
      rw [if_neg (by omega)]
    | succ f2 =>
      show (if i < n then _ else (bits, first)) = (if i < n then _ else (bits, first))
      by_cases hin : i < n
      · rw [if_pos hin, if_pos hin]
        split
        · exact ih (by omega) (by omega)
        · split
          · exact ih (by omega) (by omega)
          · exact ih (by omega) (by omega)
      · rw [if_neg hin, if_neg hin]

lemma feedbackTileSizeLoop_pos {half : Nat} (hhalf : 1 ≤ half) :
    ∀ fuel v, 1 ≤ v → 1 ≤ feedbackTileSizeLoop half fuel v := by
  intro fuel
  induction fuel with
  | zero => intro v hv; exact hv
  | succ f ih =>
    intro v hv
    show 1 ≤ if half < v then feedbackTileSizeLoop half f (PrevPowerOf2 (v - 1)) else v
    by_cases h : half < v
    · rw [if_pos h]
      exact ih _ (PrevPowerOf2_pos (by omega))
    · rw [if_neg h]; exact hv

lemma feedbackTileSizeLoop_half_zero :
    ∀ fuel v, v ≤ fuel → feedbackTileSizeLoop 0 fuel v = 0 := by
  intro fuel
  induction fuel with
  | zero =>
    intro v hv
    have hv0 : v = 0 := by omega
    subst hv0
    rfl
  | succ f ih =>
    intro v hv
    show (if 0 < v then feedbackTileSizeLoop 0 f (PrevPowerOf2 (v - 1)) else v) = 0
    by_cases h : 0 < v
    · rw [if_pos h]
      exact ih _ (le_trans (PrevPowerOf2_le _) (by omega))
    · rw [if_neg h]; omega

lemma getD_set_self {α : Type} (l : List α) (i : Nat) (a d : α) (h : i < l.length) :
    (l.set i a).getD i d = a := by
  rw [List.getD_eq_getElem _ _ (by simpa using h)]
  exact List.getElem_set_self (by simpa using h)

lemma getD_set_ne {α : Type} (l : List α) {i j : Nat} (a : α) (d : α) (h : i ≠ j) :
    (l.set i a).getD j d = l.getD j d := by
  by_cases hj : j < l.length
  · rw [List.getD_eq_getElem _ _ (by simpa using hj), List.getD_eq_getElem _ _ hj]
    exact List.getElem_set_ne h _
  · rw [List.getD_eq_default _ _ (by simpa using Nat.le_of_not_lt hj),
        List.getD_eq_default _ _ (Nat.le_of_not_lt hj)]

lemma getTexture_setTexture_self (m : TiledTextureManagerImpl) (i : Nat)
    (ts : TiledTextureState) (h : i < m.tiledTextures.length) :
    getTexture (setTexture m i ts) i = ts := by
  unfold getTexture setTexture
  exact getD_set_self _ _ _ _ h

lemma getTexture_setTexture_ne (m : TiledTextureManagerImpl) {i j : Nat}
    (ts : TiledTextureState) (h : i ≠ j) :
    getTexture (setTexture m i ts) j = getTexture m j := by
  unfold getTexture setTexture
  exact getD_set_ne _ _ _ h

lemma minMipTileStep_eq_self (desc : TiledTextureSharedDesc) (ts : List TileState)
    (data : List Nat) (k : Nat) (h : minMipFootprintWrite desc k data = data) :
    minMipTileStep desc ts data k = data := by
  unfold minMipTileStep
  split
  · rfl
  · exact h

/-- The first twenty iterations of the `WriteMinMipData` tile loop on the
scenario-6 layout leave the freshly filled buffer unchanged, whatever the
tile states are: the guard `data[index] == mipLevel + 1` compares `3`
against `1` (mip 0) or `2` (mip 1) and never fires. -/
lemma mmShared_prefix_foldl (ts : List TileState) :
    (List.range 20).foldl (minMipTileStep mmShared ts) (List.replicate 16 3) =
      List.replicate 16 3 := by
  have e : List.range 20 = [0, 1, 2, 3, 4, 5, 6, 7, 8, 9, 10, 11, 12, 13,
      14, 15, 16, 17, 18, 19] := by decide
  rw [e]
  simp only [List.foldl_cons, List.foldl_nil]
  rw [minMipTileStep_eq_self mmShared ts (List.replicate 16 3) 0 (by decide)]
  rw [minMipTileStep_eq_self mmShared ts (List.replicate 16 3) 1 (by decide)]
  rw [minMipTileStep_eq_self mmShared ts (List.replicate 16 3) 2 (by decide)]
  rw [minMipTileStep_eq_self mmShared ts (List.replicate 16 3) 3 (by decide)]
  rw [minMipTileStep_eq_self mmShared ts (List.replicate 16 3) 4 (by decide)]
  rw [minMipTileStep_eq_self mmShared ts (List.replicate 16 3) 5 (by decide)]
  rw [minMipTileStep_eq_self mmShared ts (List.replicate 16 3) 6 (by decide)]
  rw [minMipTileStep_eq_self mmShared ts (List.replicate 16 3) 7 (by decide)]
  rw [minMipTileStep_eq_self mmShared ts (List.replicate 16 3) 8 (by decide)]
  rw [minMipTileStep_eq_self mmShared ts (List.replicate 16 3) 9 (by decide)]
  rw [minMipTileStep_eq_self mmShared ts (List.replicate 16 3) 10 (by decide)]
  rw [minMipTileStep_eq_self mmShared ts (List.replicate 16 3) 11 (by decide)]
  rw [minMipTileStep_eq_self mmShared ts (List.replicate 16 3) 12 (by decide)]
  rw [minMipTileStep_eq_self mmShared ts (List.replicate 16 3) 13 (by decide)]
  rw [minMipTileStep_eq_self mmShared ts (List.replicate 16 3) 14 (by decide)]
  rw [minMipTileStep_eq_self mmShared ts (List.replicate 16 3) 15 (by decide)]
  rw [minMipTileStep_eq_self mmShared ts (List.replicate 16 3) 16 (by decide)]
  rw [minMipTileStep_eq_self mmShared ts (List.replicate 16 3) 17 (by decide)]
  rw [minMipTileStep_eq_self mmShared ts (List.replicate 16 3) 18 (by decide)]
  rw [minMipTileStep_eq_self mmShared ts (List.replicate 16 3) 19 (by decide)]

/-! ## Claim theorems -/

/-- **C10.**  The feedback-geometry computation of `addTiledTexture` is
total only under `textureWidth ≥ 2`, `textureHeight ≥ 2`, `tileWidth ≥ 1`,
`tileHeight ≥ 1`: under it, the power-of-two shrinking loop produces a
feedback tile size of at least `1`, which is exactly the divisor of the
`feedbackGranularityX/Y` and `feedbackTilesX/Y` divisions in
`initSharedDesc`; with `textureWidth ≤ 1` (or symmetrically
`textureHeight ≤ 1`, or a zero tile size) the loop drives the feedback
tile size to `0` and those divisions divide by zero. -/
theorem C10_feedback_geometry_totality (d : TiledTextureDesc) :
    (2 ≤ d.textureWidth → 1 ≤ d.tileWidth →
      1 ≤ feedbackTileSize d.textureWidth d.tileWidth) ∧
    (2 ≤ d.textureHeight → 1 ≤ d.tileHeight →
      1 ≤ feedbackTileSize d.textureHeight d.tileHeight) ∧
    (d.textureWidth ≤ 1 → feedbackTileSize d.textureWidth d.tileWidth = 0) ∧
    (d.textureHeight ≤ 1 → feedbackTileSize d.textureHeight d.tileHeight = 0) ∧
    (d.tileWidth = 0 → feedbackTileSize d.textureWidth d.tileWidth = 0) := by
  refine ⟨?_, ?_, ?_, ?_, ?_⟩
  · intro hW htw
    exact feedbackTileSizeLoop_pos (by omega) _ _ htw
  · intro hH hth
    exact feedbackTileSizeLoop_pos (by omega) _ _ hth
  · intro hW
    have : d.textureWidth / 2 = 0 := by omega
    unfold feedbackTileSize
    rw [this]
    exact feedbackTileSizeLoop_half_zero _ _ le_rfl
  · intro hH
    have : d.textureHeight / 2 = 0 := by omega
    unfold feedbackTileSize
    rw [this]
    exact feedbackTileSizeLoop_half_zero _ _ le_rfl
  · intro htw
    unfold feedbackTileSize
    rw [htw]
    rfl

/-- Witness for C10 at the 1024×1024 texture (positive case) and the
degenerate 1-texel-wide texture (division-by-zero case). -/
theorem C10_witness :
    1 ≤ feedbackTileSize 1024 256 ∧ feedbackTileSize 1 256 = 0 :=
  ⟨(C10_feedback_geometry_totality mmDesc).1 (by decide) (by decide),
   (C10_feedback_geometry_totality degenerateDesc).2.2.1 (by decide)⟩

/-- **C5.**  (code bug) `removeTiledTexture` is claimed to leave no queue
entry with the removed id, including packed-tile entries, which
`addTiledTexture` had placed in state `Requested`.  The code's erase loop
runs over regular tile indices only, so for a texture whose only tile is a
packed tile the requested-queue entry survives the removal while the id is
already back on the freelist (and no heap slot was ever allocated, so the
slot-freeing part holds vacuously). -/
theorem C5_remove_leaves_packed_requested_entry :
    stateOf mgrC5add 0 0 = .Requested ∧
    mgrC5add.requestedQueue = [⟨0, 0⟩] ∧
    mgrC5.requestedQueue = [⟨0, 0⟩] ∧
    mgrC5.tiledTextureFreelist = [0] ∧
    (∀ a ∈ (getTexture mgrC5add 0).tileAllocations, a.pHeap = none) := by
  decide

/-- **C6.**  (code bug) The spec's invariant "`(textureId, t) ∈
standbyQueue ⇔ state[t] = Standby` after every public operation" fails on
the code: after the documented call sequence `c6m4`–`c6m10` (rooted in the
C5 removal bug, which leaves a stale requested-queue entry that later
duplicates), the final `allocateRequestedTiles` pops a queue entry whose
tile is `Standby`, erases it from the standby queue, then fails to
allocate and never writes the new state — leaving the tile `Standby` but
absent from the standby queue. -/
theorem C6_standby_queue_desync :
    c6m9.standbyQueue = [⟨0, 0⟩] ∧ stateOf c6m9 0 0 = .Standby ∧
    c6m10.standbyQueue = [] ∧ stateOf c6m10 0 0 = .Standby := by
  decide

/-- **C7** (counterexample).  The claim says a disallowed transition is a
no-op in release builds; but `updateTilesMapping` on a `Free` tile changes
its recorded state to `Mapped`. -/
theorem C7_counterexample :
    stateOf c7mgr 0 0 = .Free ∧ stateOf c7mgrAfter 0 0 = .Mapped := by
  decide

/-- **C7** (amended).  In release builds no validity check is performed:
the disallowed transition executes with its normal side effects and the
recorded state becomes the new state.  For the claim's example —
`updateTilesMapping` on a tile in `Free` rather than `Allocated` — the
tile's recorded state becomes `Mapped`, while the queues, the allocator,
the recorded allocations and the pending map/unmap lists are left
unchanged (the `Mapped` case of the switch has no side effects). -/
theorem C7_invalid_transition_executes (m : TiledTextureManagerImpl)
    (textureId tileIndex : Nat)
    (htex : textureId < m.tiledTextures.length)
    (htile : tileIndex < (getTexture m textureId).tileStates.length)
    (hfree : stateOf m textureId tileIndex = .Free) :
    stateOf (UpdateTilesMapping m textureId [tileIndex]) textureId tileIndex = .Mapped ∧
    (UpdateTilesMapping m textureId [tileIndex]).requestedQueue = m.requestedQueue ∧
    (UpdateTilesMapping m textureId [tileIndex]).standbyQueue = m.standbyQueue ∧
    (UpdateTilesMapping m textureId [tileIndex]).tileAllocator = m.tileAllocator ∧
    (getTexture (UpdateTilesMapping m textureId [tileIndex]) textureId).tileAllocations =
      (getTexture m textureId).tileAllocations ∧
    (getTexture (UpdateTilesMapping m textureId [tileIndex]) textureId).tilesToMap =
      (getTexture m textureId).tilesToMap ∧
    (getTexture (UpdateTilesMapping m textureId [tileIndex]) textureId).tilesToUnmap =
      (getTexture m textureId).tilesToUnmap := by
  have hm : UpdateTilesMapping m textureId [tileIndex] =
      transitionSetState (transitionPrologue m textureId tileIndex)
        textureId tileIndex .Mapped := rfl
  have hpro : transitionPrologue m textureId tileIndex = m := by
    unfold transitionPrologue
    rw [hfree]
    simp
  rw [hm, hpro]
  unfold transitionSetState
  refine ⟨?_, rfl, rfl, rfl, ?_, ?_, ?_⟩
  · unfold stateOf
    rw [getTexture_setTexture_self _ _ _ htex]
    exact getD_set_self _ _ _ _ htile
  · rw [getTexture_setTexture_self _ _ _ htex]
  · rw [getTexture_setTexture_self _ _ _ htex]
  · rw [getTexture_setTexture_self _ _ _ htex]

/-- Witness for C7's amended theorem at the concrete one-tile manager. -/
theorem C7_witness :
    stateOf (UpdateTilesMapping c7mgr 0 [0]) 0 0 = .Mapped ∧
    (UpdateTilesMapping c7mgr 0 [0]).standbyQueue = c7mgr.standbyQueue :=
  ⟨(C7_invalid_transition_executes c7mgr 0 0 (by decide) (by decide) (by decide)).1,
   (C7_invalid_transition_executes c7mgr 0 0 (by decide) (by decide) (by decide)).2.2.1⟩

/-- **C1** (counterexample).  At the claim's own scenario input the
MinMip output is sixteen entries equal to `2` — not fifteen `1`s and one
`2`. -/
theorem C1_counterexample :
    WriteMinMipData mmShared mmStates = List.replicate 16 2 ∧
    ¬((WriteMinMipData mmShared mmStates).count 1 = 15 ∧
      (WriteMinMipData mmShared mmStates).count 2 = 1) := by
  decide

/-- **C1** (amended).  `writeMinMipData` fills the output with
`regularMipLevelsNum` and then visits resident tiles in **ascending**
tile-index order (finest mip first); with the `data[index] == mip + 1`
guard, only tiles of the coarsest regular mip can ever update the buffer.
For the claim's 4×4 texture with mips 0, 1, 2, whatever the 21 tile states
are, every output entry is `2` when the single mip-2 tile is resident
(`Mapped` or `Standby`) and `3` otherwise; in particular the claim's
scenario yields sixteen `2`s. -/
theorem C1_minmip_ascending_amended
    (s0 s1 s2 s3 s4 s5 s6 s7 s8 s9 s10 s11 s12 s13 s14 s15 s16 s17 s18 s19 s20 : TileState) :
    WriteMinMipData mmShared
      [s0, s1, s2, s3, s4, s5, s6, s7, s8, s9, s10, s11, s12, s13, s14, s15,
       s16, s17, s18, s19, s20] =
      (if s20 = .Mapped ∨ s20 = .Standby then List.replicate 16 2
       else List.replicate 16 3) := by
  show (List.range 21).foldl
      (minMipTileStep mmShared
        [s0, s1, s2, s3, s4, s5, s6, s7, s8, s9, s10, s11, s12, s13, s14, s15,
         s16, s17, s18, s19, s20])
      (List.replicate 16 3) = _
  have e21 : List.range 21 = List.range 20 ++ [20] := by decide
  rw [e21, List.foldl_append, mmShared_prefix_foldl]
  simp only [List.foldl_cons, List.foldl_nil]
  cases s20 <;> rfl

/-- **C4** (counterexample).  Feeding the 4×4 texture feedback whose cell 0
samples mip byte `1` with `mipLevelBias = +255`: the biased mip is stored
into the 8-bit `TileCoord::mipLevel` field and wraps to `(1 + 255) % 256 =
0 < regularMipLevelsNum`, so the **regular** mip-0 tile bit 0 is set in the
request set and the tile is even transitioned to `Requested` — the claim
says every sampled cell is clamped into the packed range and no regular
tile bit is set. -/
theorem C4_counterexample :
    getBit (getTexture mgrC4 0).requestedBits 0 = true ∧
    0 < smallShared.regularTilesNum ∧
    stateOf mgrC4 0 0 = .Requested := by
  decide

/-- **C4** (amended).  With `mipLevelBias = +255` the stored mip level is
`(byte + 255) % 256` — i.e. byte `0` maps to mip `255` (the packed range
whenever `regularMipLevelsNum ≤ 255`), and byte `m ≥ 1` wraps to `m - 1`;
hence a sampled cell is clamped into the packed-tile range only when its
byte is `0` or exceeds `regularMipLevelsNum`, while a byte in
`[1, regularMipLevelsNum]` yields a regular mip and sets a regular tile
bit. -/
theorem C4_bias255_wraps (desc : TiledTextureSharedDesc) (mByte : Nat)
    (hle : mByte ≤ 254) :
    storedMipLevel mByte 255 = (if mByte = 0 then 255 else mByte - 1) ∧
    (1 ≤ mByte → mByte ≤ desc.regularMipLevelsNum →
      storedMipLevel mByte 255 < desc.regularMipLevelsNum) ∧
    (desc.regularMipLevelsNum ≤ 255 →
      (desc.regularMipLevelsNum ≤ storedMipLevel mByte 255 ↔
        (mByte = 0 ∨ desc.regularMipLevelsNum + 1 ≤ mByte))) := by
  have hs : storedMipLevel mByte 255 = (mByte + 255) % 256 := by
    unfold storedMipLevel
    have hmax : max ((mByte : Int) + 255) 0 = (mByte : Int) + 255 := by
      rw [max_eq_left]
      omega
    rw [hmax]
    omega
  have hval : storedMipLevel mByte 255 = (if mByte = 0 then 255 else mByte - 1) := by
    rw [hs]
    by_cases h0 : mByte = 0
    · subst h0; rfl
    · rw [if_neg h0]
      omega
  refine ⟨hval, ?_, ?_⟩
  · intro h1 h2
    rw [hval, if_neg (by omega)]
    omega
  · intro hR
    rw [hval]
    by_cases h0 : mByte = 0
    · subst h0
      simp
      omega
    · rw [if_neg h0]
      omega

/-- Witness for C4's amended theorem: byte `1` on the 4×4 texture's
descriptor (`regularMipLevelsNum = 2`) wraps to mip `0`, inside the
regular range. -/
theorem C4_witness :
    storedMipLevel 1 255 = 0 ∧ storedMipLevel 1 255 < smallShared.regularMipLevelsNum :=
  ⟨(C4_bias255_wraps smallShared 1 (by decide)).1,
   (C4_bias255_wraps smallShared 1 (by decide)).2.1 (by decide) (by decide)⟩

/-- **C8.**  `TileAllocator::AllocateTile` scans the heaps in insertion
order and picks the first heap with a free slot (characterized here by
"every heap before index `k` is full and heap `k` has a free slot"), pops
the most recently freed slot index — the back of that heap's free stack —
records the `(textureId, tileIndex)` occupancy for the slot, and returns
an allocation carrying that heap's id and the slot index.  It returns an
invalid allocation (`IsValid` false) with the allocator unchanged exactly
when every registered heap has zero free slots.  The final conjunct shows
the "most recently freed" reading: a slot freed by `FreeTile` is the next
one popped. -/
theorem C8_allocate_tile_first_fit (a : TileAllocator) (textureId tileIndex : Nat) :
    ((∀ h ∈ a.heaps, h.FreeTilesNum = 0) →
      (a.AllocateTile textureId tileIndex).1.IsValid = false ∧
      (a.AllocateTile textureId tileIndex).2 = a) ∧
    (∀ k slot, (hk : k < a.heaps.length) →
      (∀ j, (hj : j < k) → (a.heaps.getD j default).FreeTilesNum = 0) →
      (a.heaps.getD k default).FreeTilesNum ≠ 0 →
      (a.heaps.getD k default).freeTileIndices.getLast? = some slot →
      (a.AllocateTile textureId tileIndex).1 =
        { heapId := (a.heaps.getD k default).heapId, heapTileIndex := slot,
          pHeap := some (a.heaps.getD k default).heapId } ∧
      (slot ≠ UINT32MAX → (a.AllocateTile textureId tileIndex).1.IsValid = true) ∧
      (a.AllocateTile textureId tileIndex).2 =
        { a with
            heaps := a.heaps.set k
              { a.heaps.getD k default with
                  freeTileIndices := (a.heaps.getD k default).freeTileIndices.dropLast
                  usedList := insertSorted slot (a.heaps.getD k default).usedList
                  allocations := (a.heaps.getD k default).allocations.set slot
                    ⟨textureId, tileIndex⟩ }
            allocatedTilesNum := a.allocatedTilesNum + 1 }) ∧
    (∀ h : TiledHeap, ∀ s : Nat,
      (TiledHeap.FreeTile h s).freeTileIndices.getLast? = some s) := by
  refine ⟨?_, ?_, ?_⟩
  · intro hfull
    have hnone : a.FindFreeHeap = none := by
      unfold TileAllocator.FindFreeHeap
      rw [List.findIdx?_eq_none_iff]
      intro x hx
      simp [hfull x hx]
    unfold TileAllocator.AllocateTile
    rw [hnone]
    exact ⟨rfl, rfl⟩
  · intro k slot hk hbefore hfree hlast
    have hfind : a.FindFreeHeap = some k := by
      unfold TileAllocator.FindFreeHeap
      rw [List.findIdx?_eq_some_iff_getElem]
      refine ⟨hk, ?_, ?_⟩
      · have : a.heaps.getD k default = a.heaps[k] := List.getD_eq_getElem _ _ hk
        rw [← this]
        simpa using hfree
      · intro j hj
        have hjk : j < a.heaps.length := Nat.lt_trans hj hk
        have hb : a.heaps[j].FreeTilesNum = 0 := by
          have hbj := hbefore j hj
          rwa [List.getD_eq_getElem _ _ hjk] at hbj
        simp [hb]
    have halloc : (a.heaps.getD k default).AllocateTile textureId tileIndex =
        ({ heapId := (a.heaps.getD k default).heapId, heapTileIndex := slot,
           pHeap := some (a.heaps.getD k default).heapId },
         { a.heaps.getD k default with
             freeTileIndices := (a.heaps.getD k default).freeTileIndices.dropLast
             usedList := insertSorted slot (a.heaps.getD k default).usedList
             allocations := (a.heaps.getD k default).allocations.set slot
               ⟨textureId, tileIndex⟩ }) := by
      unfold TiledHeap.AllocateTile
      rw [hlast]
    refine ⟨?_, ?_, ?_⟩
    · unfold TileAllocator.AllocateTile
      rw [hfind]
      simp only [halloc]
    · intro hslot
      unfold TileAllocator.AllocateTile
      rw [hfind]
      simp only [halloc]
      unfold TileAllocation.IsValid
      simp [hslot]
    · unfold TileAllocator.AllocateTile
      rw [hfind]
      simp only [halloc]
  · intro h s
    unfold TiledHeap.FreeTile
    simp

/-- Witness for C8 at a two-heap allocator whose first heap is full. -/
theorem C8_witness :
    (({ heaps := [{ tilesNum := 1, heapId := 7, freeTileIndices := [],
                    usedList := [0], allocations := [⟨3, 4⟩] },
                  TiledHeap.new 1 9],
        heapSizeInTiles := 1, tileSizeInBytes := 65536,
        allocatedTilesNum := 1 : TileAllocator }).AllocateTile 3 5).1 =
      { heapId := 9, heapTileIndex := 0, pHeap := some 9 } := by
  have h := (C8_allocate_tile_first_fit
    { heaps := [{ tilesNum := 1, heapId := 7, freeTileIndices := [],
                  usedList := [0], allocations := [⟨3, 4⟩] },
                TiledHeap.new 1 9],
      heapSizeInTiles := 1, tileSizeInBytes := 65536,
      allocatedTilesNum := 1 } 3 5).2.1 1 0 (by decide)
    (by decide) (by decide) (by decide)
  exact h.1

lemma getBit_setBit_ne (b : List Bool) {i j : Nat} (h : i ≠ j) :
    getBit (setBit b i) j = getBit b j :=
  getD_set_ne _ _ _ h

lemma getBit_bitArrayInit (N t : Nat) : getBit (bitArrayInit N) t = false := by
  unfold getBit bitArrayInit
  by_cases h : t < N
  · rw [List.getD_eq_getElem _ _ (by simpa using h)]
    simp
  · exact List.getD_eq_default _ _ (by simpa using Nat.le_of_not_lt h)

lemma getBit_foldl_setBit_add (l : List Nat) (c : Nat) (b : List Bool) (t : Nat)
    (ht : ∀ p ∈ l, t ≠ c + p) :
    getBit (l.foldl (fun bb p => setBit bb (c + p)) b) t = getBit b t := by
  induction l generalizing b with
  | nil => rfl
  | cons x xs ih =>
    rw [List.foldl_cons, ih _ (fun p hp => ht p (List.mem_cons_of_mem _ hp))]
    exact getBit_setBit_ne _ (fun he => ht x (List.mem_cons_self _ _) he.symm)

/-- An all-`0xFF` buffer never sets a bit nor updates `firstTileIndex`:
every loop iteration — batch skip or per-cell skip — leaves the
accumulators unchanged. -/
lemma DecodeLoop_all_ff (desc : TiledTextureSharedDesc) (data : Nat → Nat) (bias : Int)
    (useBatch : Bool) (n : Nat) (hdata : ∀ j, j < n → data j = 255) :
    ∀ fuel i bits first,
      DecodeLoop desc data bias useBatch n fuel i bits first = (bits, first) := by
  intro fuel
  induction fuel with
  | zero => intro i bits first; rfl
  | succ f ih =>
    intro i bits first
    show (if i < n then _ else (bits, first)) = (bits, first)
    by_cases hin : i < n
    · rw [if_pos hin]
      split
      · exact ih _ _ _
      · rw [if_neg (by simp [hdata i hin])]
        exact ih _ _ _
    · rw [if_neg hin]

lemma PropagateLoop_sentinel (desc : TiledTextureSharedDesc) (lastTileIndex : Nat)
    (bits : List Bool) (h : lastTileIndex ≤ UINT32MAX) :
    PropagateLoop desc lastTileIndex UINT32MAX bits = bits := by
  unfold PropagateLoop
  rw [Nat.sub_eq_zero_of_le h]
  rfl

lemma updateOneTile_skip (m : TiledTextureManagerImpl) (textureId : Nat)
    (bits : List Bool) (timestamp : ℤ) (t : Nat) (hbit : getBit bits t = false) :
    updateOneTile m textureId bits timestamp none t = m := by
  unfold updateOneTile
  rw [hbit]
  simp only [Bool.false_eq_true, if_false]
  split
  · simp [timeoutElapsed]
  · rfl

lemma foldl_fixed {α β : Type} (l : List β) (f : α → β → α) (a : α)
    (h : ∀ x ∈ l, ∀ y, f y x = y) : l.foldl f a = a := by
  induction l generalizing a with
  | nil => rfl
  | cons x xs ih =>
    rw [List.foldl_cons, h x (List.mem_cons_self _ _)]
    exact ih _ (fun y hy => h y (List.mem_cons_of_mem _ hy))

lemma setTexture_oob (m : TiledTextureManagerImpl) (i : Nat) (ts : TiledTextureState)
    (h : m.tiledTextures.length ≤ i) : setTexture m i ts = m := by
  unfold setTexture
  rw [List.set_eq_of_length_le h]

lemma setTexture_length (m : TiledTextureManagerImpl) (i : Nat) (ts : TiledTextureState) :
    (setTexture m i ts).tiledTextures.length = m.tiledTextures.length :=
  List.length_set _ _ _

/-- A texture-state projection that the written record preserves is
preserved across `setTexture`, for every texture id. -/
lemma proj_setTexture {γ : Type} (f : TiledTextureState → γ)
    (m : TiledTextureManagerImpl) (i : Nat) (ts' : TiledTextureState) (j : Nat)
    (h : f ts' = f (getTexture m i)) :
    f (getTexture (setTexture m i ts') j) = f (getTexture m j) := by
  by_cases hij : i = j
  · subst hij
    by_cases hb : i < m.tiledTextures.length
    · rw [getTexture_setTexture_self _ _ _ hb, h]
    · rw [setTexture_oob _ _ _ (Nat.le_of_not_lt hb)]
  · rw [getTexture_setTexture_ne _ _ hij]

lemma tileStates_setTexture (m : TiledTextureManagerImpl) (i : Nat)
    (ts' : TiledTextureState) (j : Nat)
    (h : ts'.tileStates = (getTexture m i).tileStates) :
    (getTexture (setTexture m i ts') j).tileStates = (getTexture m j).tileStates :=
  proj_setTexture (fun ts => ts.tileStates) m i ts' j h

lemma tilesToMap_setTexture (m : TiledTextureManagerImpl) (i : Nat)
    (ts' : TiledTextureState) (j : Nat)
    (h : ts'.tilesToMap = (getTexture m i).tilesToMap) :
    (getTexture (setTexture m i ts') j).tilesToMap = (getTexture m j).tilesToMap :=
  proj_setTexture (fun ts => ts.tilesToMap) m i ts' j h

lemma tilesToUnmap_setTexture (m : TiledTextureManagerImpl) (i : Nat)
    (ts' : TiledTextureState) (j : Nat)
    (h : ts'.tilesToUnmap = (getTexture m i).tilesToUnmap) :
    (getTexture (setTexture m i ts') j).tilesToUnmap = (getTexture m j).tilesToUnmap :=
  proj_setTexture (fun ts => ts.tilesToUnmap) m i ts' j h

lemma descIndex_setTexture (m : TiledTextureManagerImpl) (i : Nat)
    (ts' : TiledTextureState) (j : Nat)
    (h : ts'.descIndex = (getTexture m i).descIndex) :
    (getTexture (setTexture m i ts') j).descIndex = (getTexture m j).descIndex :=
  proj_setTexture (fun ts => ts.descIndex) m i ts' j h

lemma getBit_packedBitsInit_lt (desc : TiledTextureSharedDesc) (t : Nat)
    (ht : t < desc.regularTilesNum) :
    getBit (packedBitsInit desc) t = false := by
  unfold packedBitsInit
  rw [getBit_foldl_setBit_add _ _ _ _ (fun p _ => by omega)]
  exact getBit_bitArrayInit _ _

lemma lastRegularFirstTile_le (desc : TiledTextureSharedDesc)
    (hWF : ∀ td ∈ desc.mipLevelTilingDescs, td.firstTileIndex ≤ UINT32MAX) :
    lastRegularFirstTile desc ≤ UINT32MAX := by
  unfold lastRegularFirstTile
  split
  · by_cases hlt : desc.regularMipLevelsNum - 1 < desc.mipLevelTilingDescs.length
    · rw [List.getD_eq_getElem _ _ hlt]
      exact hWF _ (List.getElem_mem hlt)
    · rw [List.getD_eq_default _ _ (Nat.le_of_not_lt hlt)]
      exact Nat.zero_le _
  · exact Nat.zero_le _

/-- All-`0xFF` feedback decodes to the packed-only bitset with
`firstTileIndex` still at the `UINT32_MAX` sentinel. -/
lemma decodeFeedbackBits_all_ff (desc : TiledTextureSharedDesc) (data : Nat → Nat)
    (smln : Nat) (bias : Int)
    (hdata : ∀ j, j < desc.feedbackTilesX * desc.feedbackTilesY → data j = 255)
    (hWF : ∀ td ∈ desc.mipLevelTilingDescs, td.firstTileIndex ≤ UINT32MAX) :
    decodeFeedbackBits desc ⟨some data, smln, bias⟩ = (packedBitsInit desc, UINT32MAX) := by
  show (PropagateLoop desc (lastRegularFirstTile desc)
      (DecodeLoop desc data bias _ _ _ 0 (packedBitsInit desc) UINT32MAX).2
      (DecodeLoop desc data bias _ _ _ 0 (packedBitsInit desc) UINT32MAX).1,
    (DecodeLoop desc data bias _ _ _ 0 (packedBitsInit desc) UINT32MAX).2) = _
  rw [DecodeLoop_all_ff desc data bias _ _ hdata _ _ _ _]
  rw [PropagateLoop_sentinel _ _ _ (lastRegularFirstTile_le desc hWF)]

/-- With the sentinel `firstTileIndex` and a bitset that is clear on every
regular tile, `UpdateTiledTexture` only rewrites `requestedBits` and
`requestedTilesNum`: the reconciliation loop is a no-op tile by tile. -/
lemma UpdateTiledTexture_all_clear (m : TiledTextureManagerImpl) (textureId : Nat)
    (bits : List Bool) (timestamp : ℤ)
    (hbits : ∀ t, t < (getSharedDesc m (getTexture m textureId).descIndex).regularTilesNum →
      getBit bits t = false) :
    UpdateTiledTexture m textureId bits UINT32MAX timestamp none =
      setTexture m textureId
        { getTexture m textureId with
            requestedBits := bits
            requestedTilesNum :=
              (getSharedDesc m (getTexture m textureId).descIndex).packedTilesNum } := by
  unfold UpdateTiledTexture
  dsimp only
  split
  · rfl
  · split
    · exact foldl_fixed _ _ _ fun x hx y =>
        updateOneTile_skip _ _ _ _ _ (hbits x (List.mem_range.mp hx))
    · rfl

/-- **C9.**  `updateWithSamplerFeedback` on an all-`0xFF` feedback buffer
with an infinite timeout (`none`, the model of `+inf`) and a finite
timestamp changes no tile state, no queue membership, not the allocator,
and appends nothing to `tilesToMap`/`tilesToUnmap` (the updated texture's
pending lists are cleared by the routine itself or left untouched on the
no-regular-mips early return; textures other than the target are entirely
untouched).  `hWF` is the `uint32_t` range invariant of the stored
first-tile indices. -/
theorem C9_all_ff_infinite_timeout_noop (m : TiledTextureManagerImpl)
    (textureId : Nat) (data : Nat → Nat) (smln : Nat) (bias : Int) (timestamp : ℤ)
    (hdata : ∀ j, j < (getSharedDesc m (getTexture m textureId).descIndex).feedbackTilesX *
      (getSharedDesc m (getTexture m textureId).descIndex).feedbackTilesY → data j = 255)
    (hWF : ∀ td ∈ (getSharedDesc m (getTexture m textureId).descIndex).mipLevelTilingDescs,
      td.firstTileIndex ≤ UINT32MAX) :
    (∀ j, (getTexture (UpdateWithSamplerFeedback m textureId ⟨some data, smln, bias⟩
        timestamp none) j).tileStates = (getTexture m j).tileStates) ∧
    (UpdateWithSamplerFeedback m textureId ⟨some data, smln, bias⟩ timestamp
        none).requestedQueue = m.requestedQueue ∧
    (UpdateWithSamplerFeedback m textureId ⟨some data, smln, bias⟩ timestamp
        none).standbyQueue = m.standbyQueue ∧
    (UpdateWithSamplerFeedback m textureId ⟨some data, smln, bias⟩ timestamp
        none).tileAllocator = m.tileAllocator ∧
    ((getTexture (UpdateWithSamplerFeedback m textureId ⟨some data, smln, bias⟩
        timestamp none) textureId).tilesToMap = [] ∨
      (getTexture (UpdateWithSamplerFeedback m textureId ⟨some data, smln, bias⟩
        timestamp none) textureId).tilesToMap = (getTexture m textureId).tilesToMap) ∧
    ((getTexture (UpdateWithSamplerFeedback m textureId ⟨some data, smln, bias⟩
        timestamp none) textureId).tilesToUnmap = [] ∨
      (getTexture (UpdateWithSamplerFeedback m textureId ⟨some data, smln, bias⟩
        timestamp none) textureId).tilesToUnmap = (getTexture m textureId).tilesToUnmap) ∧
    (∀ j, j ≠ textureId →
      getTexture (UpdateWithSamplerFeedback m textureId ⟨some data, smln, bias⟩
        timestamp none) j = getTexture m j) := by
  have he : UpdateWithSamplerFeedback m textureId ⟨some data, smln, bias⟩ timestamp none =
      (if (getSharedDesc m (getTexture m textureId).descIndex).regularMipLevelsNum = 0 then
        setTexture m textureId
          { getTexture m textureId with
              requestedTilesNum :=
                (getSharedDesc m (getTexture m textureId).descIndex).packedTilesNum }
      else
        UpdateTiledTexture
          (setTexture
            (setTexture m textureId
              { getTexture m textureId with
                  requestedTilesNum :=
                    (getSharedDesc m (getTexture m textureId).descIndex).packedTilesNum })
            textureId
            { getTexture
                (setTexture m textureId
                  { getTexture m textureId with
                      requestedTilesNum :=
                        (getSharedDesc m
                          (getTexture m textureId).descIndex).packedTilesNum })
                textureId with
                tilesToMap := [], tilesToUnmap := [] })
          textureId
          (decodeFeedbackBits (getSharedDesc m (getTexture m textureId).descIndex)
            ⟨some data, smln, bias⟩).1
          (decodeFeedbackBits (getSharedDesc m (getTexture m textureId).descIndex)
            ⟨some data, smln, bias⟩).2
          timestamp none) := rfl
  rw [decodeFeedbackBits_all_ff _ data smln bias hdata hWF] at he
  set T := getTexture m textureId with hT
  set D := getSharedDesc m T.descIndex with hD
  set m1 := setTexture m textureId { T with requestedTilesNum := D.packedTilesNum } with hm1
  set m2 := setTexture m1 textureId
    { getTexture m1 textureId with tilesToMap := [], tilesToUnmap := [] } with hm2
  have hdescIdx2 : (getTexture m2 textureId).descIndex = T.descIndex := by
    rw [hm2]
    rw [descIndex_setTexture]
    · rw [hm1]
      rw [descIndex_setTexture]
      rfl
    · rfl
  by_cases hR : D.regularMipLevelsNum = 0
  · rw [he, if_pos hR]
    refine ⟨?_, rfl, rfl, rfl, Or.inr ?_, Or.inr ?_, ?_⟩
    · intro j
      rw [hm1]
      rw [tileStates_setTexture]
      rfl
    · rw [hm1]
      rw [tilesToMap_setTexture]
      rfl
    · rw [hm1]
      rw [tilesToUnmap_setTexture]
      rfl
    · intro j hj
      rw [hm1, getTexture_setTexture_ne _ _ (Ne.symm hj)]
  · have hbits2 : ∀ t,
        t < (getSharedDesc m2 (getTexture m2 textureId).descIndex).regularTilesNum →
        getBit ((packedBitsInit D, UINT32MAX)).1 t = false := by
      intro t ht
      rw [hdescIdx2] at ht
      have he2 : getSharedDesc m2 T.descIndex = D := rfl
      rw [he2] at ht
      exact getBit_packedBitsInit_lt _ _ ht
    have hfin := UpdateTiledTexture_all_clear m2 textureId
      ((packedBitsInit D, UINT32MAX)).1 timestamp hbits2
    rw [he, if_neg hR, hfin]
    refine ⟨?_, rfl, rfl, rfl, Or.inl ?_, Or.inl ?_, ?_⟩
    · intro j
      rw [tileStates_setTexture]
      · rw [hm2]
        rw [tileStates_setTexture]
        · rw [hm1]
          rw [tileStates_setTexture]
          rfl
        · rfl
      · rfl
    · rw [tilesToMap_setTexture]
      · by_cases hb : textureId < m1.tiledTextures.length
        · rw [hm2, getTexture_setTexture_self _ _ _ hb]
        · rw [hm2, setTexture_oob _ _ _ (Nat.le_of_not_lt hb)]
          show (m1.tiledTextures.getD textureId default).tilesToMap = []
          rw [List.getD_eq_default _ _ (Nat.le_of_not_lt hb)]
          rfl
      · rfl
    · rw [tilesToUnmap_setTexture]
      · by_cases hb : textureId < m1.tiledTextures.length
        · rw [hm2, getTexture_setTexture_self _ _ _ hb]
        · rw [hm2, setTexture_oob _ _ _ (Nat.le_of_not_lt hb)]
          show (m1.tiledTextures.getD textureId default).tilesToUnmap = []
          rw [List.getD_eq_default _ _ (Nat.le_of_not_lt hb)]
          rfl
      · rfl
    · intro j hj
      rw [getTexture_setTexture_ne _ _ (Ne.symm hj), hm2,
        getTexture_setTexture_ne _ _ (Ne.symm hj), hm1,
        getTexture_setTexture_ne _ _ (Ne.symm hj)]

/-- Witness for C9 at the 4×4 texture manager with an all-`0xFF` buffer. -/
theorem C9_witness :
    (UpdateWithSamplerFeedback smallMgr 0 ⟨some fun _ => 255, 0, 0⟩ 5
      none).requestedQueue = smallMgr.requestedQueue ∧
    (getTexture (UpdateWithSamplerFeedback smallMgr 0 ⟨some fun _ => 255, 0, 0⟩ 5
      none) 0).tileStates = (getTexture smallMgr 0).tileStates := by
  have h := C9_all_ff_infinite_timeout_noop smallMgr 0 (fun _ => 255) 0 0 5
    (fun j _ => rfl) (by decide)
  exact ⟨h.2.1, h.1 0⟩

/-! ### Claim C2: ancestral closure of the decoded request bitset

The key structural facts: the `tileIndexToLowerMipTileIndex` entry of every
regular tile below the last regular mip is strictly larger than the tile's
own index (the next-coarser mip starts after the current one) and strictly
smaller than `regularTilesNum`; the decode loop only sets bits at indices
`≥` the final `firstTileIndex`; the single ascending propagation pass then
closes the bitset under the lower-mip map. -/

lemma setBit_length (b : List Bool) (i : Nat) : (setBit b i).length = b.length :=
  List.length_set _ _ _

lemma getBit_setBit_self (b : List Bool) (i : Nat) (h : i < b.length) :
    getBit (setBit b i) i = true :=
  getD_set_self _ _ _ _ h

lemma getBit_setBit_preserve (b : List Bool) (i t : Nat)
    (h : getBit b t = true) : getBit (setBit b i) t = true := by
  by_cases hit : i = t
  · subst hit
    by_cases hl : i < b.length
    · exact getBit_setBit_self b i hl
    · unfold setBit
      rw [List.set_eq_of_length_le (Nat.le_of_not_lt hl)]
      exact h
  · rw [getBit_setBit_ne b hit]
    exact h

lemma getBit_setBit_cases (b : List Bool) {i t : Nat}
    (h : getBit (setBit b i) t = true) : t = i ∨ getBit b t = true := by
  by_cases hit : i = t
  · exact Or.inl hit.symm
  · rw [getBit_setBit_ne b hit] at h
    exact Or.inr h

lemma length_foldl_setBit_add (c : Nat) (l : List Nat) :
    ∀ b : List Bool, (l.foldl (fun bb q => setBit bb (c + q)) b).length = b.length := by
  induction l with
  | nil => intro b; rfl
  | cons x xs ih =>
    intro b
    rw [List.foldl_cons, ih]
    exact setBit_length _ _

lemma getBit_foldl_setBit_range (c : Nat) :
    ∀ (k : Nat) (b : List Bool) (p : Nat), p < k → c + p < b.length →
      getBit ((List.range k).foldl (fun bb q => setBit bb (c + q)) b) (c + p) = true := by
  intro k
  induction k with
  | zero => intro b p hp _; exact absurd hp (Nat.not_lt_zero p)
  | succ k ih =>
    intro b p hp hb
    rw [List.range_succ, List.foldl_append, List.foldl_cons, List.foldl_nil]
    by_cases hpk : p = k
    · subst hpk
      apply getBit_setBit_self
      rw [length_foldl_setBit_add]
      exact hb
    · exact getBit_setBit_preserve _ _ _ (ih b p (by omega) hb)

lemma packedBitsInit_length (desc : TiledTextureSharedDesc) :
    (packedBitsInit desc).length = desc.regularTilesNum + desc.packedTilesNum := by
  unfold packedBitsInit
  rw [length_foldl_setBit_add]
  simp [bitArrayInit]

lemma getBit_packedBitsInit_packed (desc : TiledTextureSharedDesc) (p : Nat)
    (hp : p < desc.packedTilesNum) :
    getBit (packedBitsInit desc) (desc.regularTilesNum + p) = true := by
  unfold packedBitsInit
  apply getBit_foldl_setBit_range
  · exact hp
  · simp [bitArrayInit]
    omega

lemma DecodeLoop_length (desc : TiledTextureSharedDesc) (data : Nat → Nat) (bias : Int)
    (useBatch : Bool) (n : Nat) :
    ∀ fuel i bits first,
      (DecodeLoop desc data bias useBatch n fuel i bits first).1.length = bits.length := by
  intro fuel
  induction fuel with
  | zero => intro i bits first; rfl
  | succ f ih =>
    intro i bits first
    show (if i < n then _ else (bits, first)).1.length = bits.length
    by_cases hin : i < n
    · rw [if_pos hin]
      split
      · exact ih _ _ _
      · split
        · rw [ih _ _ _]
          exact setBit_length _ _
        · exact ih _ _ _
    · rw [if_neg hin]

lemma DecodeLoop_preserve (desc : TiledTextureSharedDesc) (data : Nat → Nat) (bias : Int)
    (useBatch : Bool) (n : Nat) :
    ∀ fuel i bits first t, getBit bits t = true →
      getBit (DecodeLoop desc data bias useBatch n fuel i bits first).1 t = true := by
  intro fuel
  induction fuel with
  | zero => intro i bits first t h; exact h
  | succ f ih =>
    intro i bits first t h
    show getBit (if i < n then _ else (bits, first)).1 t = true
    by_cases hin : i < n
    · rw [if_pos hin]
      split
      · exact ih _ _ _ _ h
      · split
        · exact ih _ _ _ _ (getBit_setBit_preserve _ _ _ h)
        · exact ih _ _ _ _ h
    · rw [if_neg hin]
      exact h

lemma DecodeLoop_first_le (desc : TiledTextureSharedDesc) (data : Nat → Nat) (bias : Int)
    (useBatch : Bool) (n : Nat) :
    ∀ fuel i bits first,
      (DecodeLoop desc data bias useBatch n fuel i bits first).2 ≤ first := by
  intro fuel
  induction fuel with
  | zero => intro i bits first; exact Nat.le_refl _
  | succ f ih =>
    intro i bits first
    show (if i < n then _ else (bits, first)).2 ≤ first
    by_cases hin : i < n
    · rw [if_pos hin]
      split
      · exact ih _ _ _
      · split
        · exact Nat.le_trans (ih _ _ _) (Nat.min_le_left _ _)
        · exact ih _ _ _
    · rw [if_neg hin]

/-- Every bit set by the decode loop was either already set or lies at or
above the loop's final `firstTileIndex`. -/
lemma DecodeLoop_sources (desc : TiledTextureSharedDesc) (data : Nat → Nat) (bias : Int)
    (useBatch : Bool) (n : Nat) :
    ∀ fuel i bits first t,
      getBit (DecodeLoop desc data bias useBatch n fuel i bits first).1 t = true →
      getBit bits t = true ∨
        (DecodeLoop desc data bias useBatch n fuel i bits first).2 ≤ t := by
  intro fuel
  induction fuel with
  | zero => intro i bits first t h; exact Or.inl h
  | succ f ih =>
    intro i bits first t
    show getBit (if i < n then _ else (bits, first)).1 t = true →
      getBit bits t = true ∨ (if i < n then _ else (bits, first)).2 ≤ t
    by_cases hin : i < n
    · rw [if_pos hin]
      split
      · exact fun h => ih _ _ _ _ h
      · split
        · intro hb
          rcases ih _ _ _ _ hb with h1 | h2
          · rcases getBit_setBit_cases bits h1 with heq | h3
            · subst heq
              exact Or.inr (Nat.le_trans (DecodeLoop_first_le _ _ _ _ _ _ _ _ _)
                (Nat.min_le_right _ _))
            · exact Or.inl h3
          · exact Or.inr h2
        · exact fun h => ih _ _ _ _ h
    · rw [if_neg hin]
      exact fun h => Or.inl h

lemma propagate_foldl_length (desc : TiledTextureSharedDesc) (l : List Nat) :
    ∀ bits : List Bool,
      (l.foldl (fun b u =>
          if getBit b u then setBit b (desc.tileIndexToLowerMipTileIndex.getD u 0) else b)
        bits).length = bits.length := by
  induction l with
  | nil => intro bits; rfl
  | cons x xs ih =>
    intro bits
    rw [List.foldl_cons, ih]
    split
    · exact setBit_length _ _
    · rfl

lemma propagate_foldl_preserve (desc : TiledTextureSharedDesc) (l : List Nat) :
    ∀ (bits : List Bool) (t : Nat), getBit bits t = true →
      getBit (l.foldl (fun b u =>
          if getBit b u then setBit b (desc.tileIndexToLowerMipTileIndex.getD u 0) else b)
        bits) t = true := by
  induction l with
  | nil => intro bits t h; exact h
  | cons x xs ih =>
    intro bits t h
    rw [List.foldl_cons]
    apply ih
    split
    · exact getBit_setBit_preserve _ _ _ h
    · exact h

/-- A propagation pass over `[a, a + k)` never changes a bit at an index
`≤ a` when the lower-mip table is strictly ascending on the range. -/
lemma propagate_foldl_stable (desc : TiledTextureSharedDesc) :
    ∀ (k a : Nat) (bits : List Bool) (p : Nat), p ≤ a →
      (∀ u, a ≤ u → u < a + k → u < desc.tileIndexToLowerMipTileIndex.getD u 0) →
      getBit ((List.range' a k).foldl (fun b u =>
          if getBit b u then setBit b (desc.tileIndexToLowerMipTileIndex.getD u 0) else b)
        bits) p = getBit bits p := by
  intro k
  induction k with
  | zero => intro a bits p _ _; rfl
  | succ k ih =>
    intro a bits p hpa hm
    rw [List.range'_succ, List.foldl_cons]
    have hstep : getBit
        (if getBit bits a then setBit bits (desc.tileIndexToLowerMipTileIndex.getD a 0)
         else bits) p = getBit bits p := by
      split
      · exact getBit_setBit_ne _ (by have := hm a (Nat.le_refl a) (by omega); omega)
      · rfl
    rw [ih (a + 1) _ p (by omega) (fun u hu1 hu2 => hm u (by omega) (by omega)), hstep]

/-- After a propagation pass over `[a, a + k)` the resulting bitset is
closed under the lower-mip map on that range, provided the table is
strictly ascending and bounded by the bitset length there. -/
lemma propagate_foldl_closure (desc : TiledTextureSharedDesc) :
    ∀ (k a : Nat) (bits : List Bool),
      (∀ u, a ≤ u → u < a + k → u < desc.tileIndexToLowerMipTileIndex.getD u 0) →
      (∀ u, a ≤ u → u < a + k →
        desc.tileIndexToLowerMipTileIndex.getD u 0 < bits.length) →
      ∀ t, a ≤ t → t < a + k →
        getBit ((List.range' a k).foldl (fun b u =>
            if getBit b u then setBit b (desc.tileIndexToLowerMipTileIndex.getD u 0) else b)
          bits) t = true →
        getBit ((List.range' a k).foldl (fun b u =>
            if getBit b u then setBit b (desc.tileIndexToLowerMipTileIndex.getD u 0) else b)
          bits) (desc.tileIndexToLowerMipTileIndex.getD t 0) = true := by
  intro k
  induction k with
  | zero => intro a bits _ _ t h1 h2; exact absurd h2 (by omega)
  | succ k ih =>
    intro a bits hm hb t hta htk hbit
    rw [List.range'_succ, List.foldl_cons] at hbit ⊢
    have hlen1 : (if getBit bits a
        then setBit bits (desc.tileIndexToLowerMipTileIndex.getD a 0)
        else bits).length = bits.length := by
      split
      · exact setBit_length _ _
      · rfl
    by_cases hteq : t = a
    · subst hteq
      have hst : getBit ((List.range' (t + 1) k).foldl (fun b u =>
          if getBit b u then setBit b (desc.tileIndexToLowerMipTileIndex.getD u 0) else b)
          (if getBit bits t then setBit bits (desc.tileIndexToLowerMipTileIndex.getD t 0)
           else bits)) t =
          getBit (if getBit bits t
            then setBit bits (desc.tileIndexToLowerMipTileIndex.getD t 0)
            else bits) t :=
        propagate_foldl_stable desc k (t + 1) _ t (Nat.le_succ t)
          (fun u hu1 hu2 => hm u (by omega) (by omega))
      rw [hst] at hbit
      have hba : getBit bits t = true := by
        by_cases hc : getBit bits t = true
        · exact hc
        · rw [if_neg hc] at hbit
          exact absurd hbit hc
      rw [if_pos hba] at hbit ⊢
      apply propagate_foldl_preserve
      exact getBit_setBit_self _ _ (hb t hta (by omega))
    · exact ih (a + 1) _ (fun u hu1 hu2 => hm u (by omega) (by omega))
        (fun u hu1 hu2 => by rw [hlen1]; exact hb u (by omega) (by omega))
        t (by omega) (by omega) hbit

lemma PropagateLoop_preserve (desc : TiledTextureSharedDesc) (L F : Nat)
    (B : List Bool) (t : Nat) (h : getBit B t = true) :
    getBit (PropagateLoop desc L F B) t = true := by
  unfold PropagateLoop
  exact propagate_foldl_preserve desc _ _ _ h

/-- Position lemma for flattened `range` loops: the element at flat
position `t` comes from the block of some loop index `i`, with the prefix
lengths bracketing `t`. -/
lemma getD_flatMap_range (f : Nat → List Nat) :
    ∀ (n t : Nat), t < ((List.range n).flatMap f).length →
      ∃ i, i < n ∧ ((List.range i).flatMap f).length ≤ t ∧
        t < ((List.range (i + 1)).flatMap f).length ∧
        ((List.range n).flatMap f).getD t 0 ∈ f i := by
  intro n
  induction n with
  | zero => intro t ht; simp at ht
  | succ n ih =>
    intro t ht
    rw [List.range_succ, List.flatMap_append] at ht ⊢
    simp only [List.flatMap_cons, List.flatMap_nil, List.append_nil] at ht ⊢
    rw [List.length_append] at ht
    by_cases h : t < ((List.range n).flatMap f).length
    · obtain ⟨i, hin, h1, h2, h3⟩ := ih t h
      exact ⟨i, by omega, h1, h2, by rw [List.getD_append _ _ _ _ h]; exact h3⟩
    · refine ⟨n, by omega, by omega, ?_, ?_⟩
      · rw [List.range_succ, List.flatMap_append]
        simp only [List.flatMap_cons, List.flatMap_nil, List.append_nil]
        rw [List.length_append]
        omega
      · rw [List.getD_append_right _ _ _ _ (Nat.le_of_not_lt h)]
        have hlt : t - ((List.range n).flatMap f).length < (f n).length := by omega
        rw [List.getD_eq_getElem _ _ hlt]
        exact List.getElem_mem hlt

lemma length_flatMap_map {α : Type} (g : Nat → Nat → α) (m : Nat) :
    ∀ n : Nat, ((List.range n).flatMap fun y => (List.range m).map (g y)).length
      = n * m := by
  intro n
  induction n with
  | zero => simp
  | succ n ih =>
    rw [List.range_succ, List.flatMap_append, List.length_append, ih]
    simp only [List.flatMap_cons, List.flatMap_nil, List.append_nil, List.length_map,
      List.length_range]
    rw [Nat.succ_mul]

lemma lowerMipBlock_length (d : TiledTextureDesc) (i : Nat) :
    (lowerMipBlock d i).length =
      (levelDesc d i).heightInTiles * (levelDesc d i).widthInTiles := by
  unfold lowerMipBlock
  exact length_flatMap_map _ _ _

lemma mem_lowerMipBlock {d : TiledTextureDesc} {i : Nat} {v : Nat}
    (h : v ∈ lowerMipBlock d i) :
    ∃ x y, x < (levelDesc d i).widthInTiles ∧ y < (levelDesc d i).heightInTiles ∧
      v = lowerMipEntry d i x y := by
  unfold lowerMipBlock at h
  rw [List.mem_flatMap] at h
  obtain ⟨y, hy, hv⟩ := h
  rw [List.mem_range] at hy
  rw [List.mem_map] at hv
  obtain ⟨x, hx, hv⟩ := hv
  rw [List.mem_range] at hx
  exact ⟨x, y, hx, hy, hv.symm⟩

lemma mipFirstTileIndex_succ (d : TiledTextureDesc) (i : Nat) :
    mipFirstTileIndex d (i + 1) =
      mipFirstTileIndex d i +
        (levelDesc d i).widthInTiles * (levelDesc d i).heightInTiles := by
  unfold mipFirstTileIndex
  rw [List.range_succ, List.foldl_append, List.foldl_cons, List.foldl_nil]

lemma flatMap_lowerMipBlock_length (d : TiledTextureDesc) :
    ∀ i : Nat,
      ((List.range i).flatMap (lowerMipBlock d)).length = mipFirstTileIndex d i := by
  intro i
  induction i with
  | zero => rfl
  | succ i ih =>
    rw [List.range_succ, List.flatMap_append, List.length_append, ih,
      mipFirstTileIndex_succ]
    simp only [List.flatMap_cons, List.flatMap_nil, List.append_nil]
    rw [lowerMipBlock_length, Nat.mul_comm]

lemma mipFirstTileIndex_mono (d : TiledTextureDesc) {i j : Nat} (h : i ≤ j) :
    mipFirstTileIndex d i ≤ mipFirstTileIndex d j := by
  induction j with
  | zero =>
    have hi0 : i = 0 := Nat.le_zero.mp h
    rw [hi0]
  | succ j ih =>
    rcases Nat.lt_or_ge i (j + 1) with hj | hj
    · have hij : i ≤ j := by omega
      exact Nat.le_trans (ih hij) (by rw [mipFirstTileIndex_succ]; omega)
    · have hij : i = j + 1 := by omega
      rw [hij]

lemma mipLevelTilingDescs_getD (d : TiledTextureDesc) {i : Nat}
    (hi : i < d.regularMipLevelsNum) :
    (mipLevelTilingDescsOf d).getD i default =
      { firstTileIndex := mipFirstTileIndex d i
        tilesX := (levelDesc d i).widthInTiles
        tilesY := (levelDesc d i).heightInTiles } := by
  unfold mipLevelTilingDescsOf
  rw [List.getD_eq_getElem _ _ (by simpa using hi)]
  simp

lemma lastRegularFirstTile_init (d : TiledTextureDesc)
    (hR : d.regularMipLevelsNum < 256) :
    lastRegularFirstTile (initSharedDesc d) =
      if 1 < d.regularMipLevelsNum then
        mipFirstTileIndex d (d.regularMipLevelsNum - 1)
      else 0 := by
  have h1 : (initSharedDesc d).regularMipLevelsNum = d.regularMipLevelsNum :=
    Nat.mod_eq_of_lt hR
  have h2 : (initSharedDesc d).mipLevelTilingDescs = mipLevelTilingDescsOf d := rfl
  unfold lastRegularFirstTile
  rw [h1, h2]
  by_cases h : 1 < d.regularMipLevelsNum
  · rw [if_pos h, if_pos h, mipLevelTilingDescs_getD d (by omega)]
  · rw [if_neg h, if_neg h]

/-- For a mip chain whose levels shrink at most by half per step (true of
any real mip chain), every lower-mip table entry below the last regular
mip is strictly above its own index and strictly below
`regularTilesNum`. -/
lemma lowerMipTable_lt (d : TiledTextureDesc)
    (hHalf : ∀ i, i + 1 < d.regularMipLevelsNum →
      ((levelDesc d i).widthInTiles - 1) / 2 < (levelDesc d (i + 1)).widthInTiles ∧
      ((levelDesc d i).heightInTiles - 1) / 2 < (levelDesc d (i + 1)).heightInTiles)
    {t : Nat} (ht : t < mipFirstTileIndex d (d.regularMipLevelsNum - 1)) :
    t < (lowerMipTableOf d).getD t 0 ∧
      (lowerMipTableOf d).getD t 0 < regularTilesNumOf d := by
  have htlen : t < ((List.range d.regularMipLevelsNum).flatMap (lowerMipBlock d)).length := by
    rw [flatMap_lowerMipBlock_length]
    exact Nat.lt_of_lt_of_le ht (mipFirstTileIndex_mono d (Nat.sub_le _ _))
  obtain ⟨i, hin, hpre, hpost, hmem⟩ := getD_flatMap_range (lowerMipBlock d) _ t htlen
  rw [flatMap_lowerMipBlock_length] at hpre hpost
  have htab : (lowerMipTableOf d).getD t 0 =
      ((List.range d.regularMipLevelsNum).flatMap (lowerMipBlock d)).getD t 0 := rfl
  rw [htab]
  have hi1 : i + 1 < d.regularMipLevelsNum := by
    rcases Nat.lt_or_ge (i + 1) d.regularMipLevelsNum with h | h
    · exact h
    · exfalso
      have hieq : i = d.regularMipLevelsNum - 1 := by omega
      rw [hieq] at hpre
      omega
  obtain ⟨x, y, hx, hy, hv⟩ := mem_lowerMipBlock hmem
  rw [hv]
  unfold lowerMipEntry
  rw [if_pos hi1]
  obtain ⟨hW, hH⟩ := hHalf i hi1
  have hx2 : x >>> 1 < (levelDesc d (i + 1)).widthInTiles := by
    rw [Nat.shiftRight_one]
    exact Nat.lt_of_le_of_lt (Nat.div_le_div_right (by omega)) hW
  have hy2 : y >>> 1 < (levelDesc d (i + 1)).heightInTiles := by
    rw [Nat.shiftRight_one]
    exact Nat.lt_of_le_of_lt (Nat.div_le_div_right (by omega)) hH
  constructor
  · exact Nat.lt_of_lt_of_le hpost
      (Nat.le_trans (Nat.le_add_right _ _) (Nat.le_add_right _ _))
  · have hprod : (y >>> 1) * (levelDesc d (i + 1)).widthInTiles + x >>> 1 <
        (levelDesc d (i + 1)).heightInTiles * (levelDesc d (i + 1)).widthInTiles :=
      calc (y >>> 1) * (levelDesc d (i + 1)).widthInTiles + x >>> 1
          < (y >>> 1) * (levelDesc d (i + 1)).widthInTiles +
              (levelDesc d (i + 1)).widthInTiles := Nat.add_lt_add_left hx2 _
        _ = (y >>> 1 + 1) * (levelDesc d (i + 1)).widthInTiles :=
            (Nat.succ_mul _ _).symm
        _ ≤ (levelDesc d (i + 1)).heightInTiles * (levelDesc d (i + 1)).widthInTiles :=
            Nat.mul_le_mul hy2 (Nat.le_refl _)
    calc mipFirstTileIndex d (i + 1) +
          (y >>> 1) * (levelDesc d (i + 1)).widthInTiles + x >>> 1
        = mipFirstTileIndex d (i + 1) +
            ((y >>> 1) * (levelDesc d (i + 1)).widthInTiles + x >>> 1) := by
          rw [Nat.add_assoc]
      _ < mipFirstTileIndex d (i + 1) +
            (levelDesc d (i + 1)).heightInTiles * (levelDesc d (i + 1)).widthInTiles :=
          Nat.add_lt_add_left hprod _
      _ = mipFirstTileIndex d (i + 2) := by
          have h2 := mipFirstTileIndex_succ d (i + 1)
          rw [show i + 1 + 1 = i + 2 from rfl] at h2
          rw [h2, Nat.mul_comm]
      _ ≤ regularTilesNumOf d := mipFirstTileIndex_mono d (by omega)

/-- The propagation pass starting at the decode result's `firstTileIndex`
closes the bitset under the lower-mip map on `[0, lastRegularFirstTile)`,
given that all set bits below `regularTilesNum` are at or above
`firstTileIndex`. -/
lemma propagate_result_closed (desc : TiledTextureSharedDesc) (B : List Bool) (F : Nat)
    (hlen : B.length = desc.regularTilesNum + desc.packedTilesNum)
    (hsrc : ∀ u, u < desc.regularTilesNum → getBit B u = true → F ≤ u)
    (hmb : ∀ u, u < lastRegularFirstTile desc →
      u < desc.tileIndexToLowerMipTileIndex.getD u 0 ∧
      desc.tileIndexToLowerMipTileIndex.getD u 0 < desc.regularTilesNum)
    (hL : lastRegularFirstTile desc ≤ desc.regularTilesNum) :
    ∀ t, t < lastRegularFirstTile desc →
      getBit (PropagateLoop desc (lastRegularFirstTile desc) F B) t = true →
      getBit (PropagateLoop desc (lastRegularFirstTile desc) F B)
        (desc.tileIndexToLowerMipTileIndex.getD t 0) = true := by
  intro t ht hbit
  unfold PropagateLoop at hbit ⊢
  rcases Nat.lt_or_ge t F with htF | htF
  · exfalso
    have hstable : getBit ((List.range' F (lastRegularFirstTile desc - F)).foldl
        (fun b u =>
          if getBit b u then setBit b (desc.tileIndexToLowerMipTileIndex.getD u 0) else b)
        B) t = getBit B t :=
      propagate_foldl_stable desc (lastRegularFirstTile desc - F) F B t
        (Nat.le_of_lt htF) (fun u hu1 hu2 => (hmb u (by omega)).1)
    rw [hstable] at hbit
    exact absurd (hsrc t (by omega) hbit) (by omega)
  · exact propagate_foldl_closure desc (lastRegularFirstTile desc - F) F B
      (fun u hu1 hu2 => (hmb u (by omega)).1)
      (fun u hu1 hu2 => by
        rw [hlen]
        exact Nat.lt_of_lt_of_le (hmb u (by omega)).2 (Nat.le_add_right _ _))
      t htF (by omega) hbit

/-- `decodeFeedbackBits` on a non-null buffer yields an ancestrally closed
bitset with all packed bits set, for any descriptor whose lower-mip table
is strictly ascending and bounded below the last regular mip. -/
lemma decodeFeedbackBits_closed (desc : TiledTextureSharedDesc) (data : Nat → Nat)
    (smln : Nat) (bias : Int)
    (hmb : ∀ u, u < lastRegularFirstTile desc →
      u < desc.tileIndexToLowerMipTileIndex.getD u 0 ∧
      desc.tileIndexToLowerMipTileIndex.getD u 0 < desc.regularTilesNum)
    (hL : lastRegularFirstTile desc ≤ desc.regularTilesNum) :
    (∀ t, t < lastRegularFirstTile desc →
      getBit (decodeFeedbackBits desc ⟨some data, smln, bias⟩).1 t = true →
      getBit (decodeFeedbackBits desc ⟨some data, smln, bias⟩).1
        (desc.tileIndexToLowerMipTileIndex.getD t 0) = true) ∧
    (∀ p, p < desc.packedTilesNum →
      getBit (decodeFeedbackBits desc ⟨some data, smln, bias⟩).1
        (desc.regularTilesNum + p) = true) := by
  constructor
  · intro t ht hbit
    refine propagate_result_closed desc _ _ ?_ ?_ hmb hL t ht hbit
    · rw [DecodeLoop_length]
      exact packedBitsInit_length desc
    · intro u hu hbu
      rcases DecodeLoop_sources desc data bias _ _ _ _ _ _ u hbu with h | h
      · rw [getBit_packedBitsInit_lt desc u hu] at h
        exact absurd h Bool.false_ne_true
      · exact h
  · intro p hp
    exact PropagateLoop_preserve desc _ _ _ _
      (DecodeLoop_preserve desc data bias _ _ _ _ _ _ _
        (getBit_packedBitsInit_packed desc p hp))

/-- **C2.** After `UpdateWithSamplerFeedback` decodes a non-null feedback
buffer, the requested-tile bitset is ancestrally closed: for every regular
tile `t` below the first tile of the last regular mip whose bit is set,
the bit of `tileIndexToLowerMipTileIndex[t]` is also set (so by the strict
ascent of that table the whole chain of coarser regular ancestors is
requested), and every packed-tile bit is set.  The single ascending
propagation pass of lines 141–143 achieves this.  Hypotheses: fewer than
256 regular mips (the `uint8_t` coordinate range the layout assumes) and
mip dimensions that shrink by at most half per level, as in any real mip
chain. -/
theorem C2_requested_bits_ancestrally_closed (d : TiledTextureDesc)
    (data : Nat → Nat) (smln : Nat) (bias : Int)
    (hR : d.regularMipLevelsNum < 256)
    (hHalf : ∀ i, i + 1 < d.regularMipLevelsNum →
      ((levelDesc d i).widthInTiles - 1) / 2 < (levelDesc d (i + 1)).widthInTiles ∧
      ((levelDesc d i).heightInTiles - 1) / 2 < (levelDesc d (i + 1)).heightInTiles) :
    (∀ t, t < lastRegularFirstTile (initSharedDesc d) →
      getBit (decodeFeedbackBits (initSharedDesc d) ⟨some data, smln, bias⟩).1 t = true →
      getBit (decodeFeedbackBits (initSharedDesc d) ⟨some data, smln, bias⟩).1
        ((initSharedDesc d).tileIndexToLowerMipTileIndex.getD t 0) = true) ∧
    (∀ p, p < (initSharedDesc d).packedTilesNum →
      getBit (decodeFeedbackBits (initSharedDesc d) ⟨some data, smln, bias⟩).1
        ((initSharedDesc d).regularTilesNum + p) = true) := by
  have hmb : ∀ u, u < lastRegularFirstTile (initSharedDesc d) →
      u < (initSharedDesc d).tileIndexToLowerMipTileIndex.getD u 0 ∧
      (initSharedDesc d).tileIndexToLowerMipTileIndex.getD u 0 <
        (initSharedDesc d).regularTilesNum := by
    intro u hu
    rw [lastRegularFirstTile_init d hR] at hu
    by_cases h1 : 1 < d.regularMipLevelsNum
    · rw [if_pos h1] at hu
      exact lowerMipTable_lt d hHalf hu
    · rw [if_neg h1] at hu
      exact absurd hu (Nat.not_lt_zero u)
  have hL : lastRegularFirstTile (initSharedDesc d) ≤
      (initSharedDesc d).regularTilesNum := by
    rw [lastRegularFirstTile_init d hR]
    split
    · exact mipFirstTileIndex_mono d (Nat.sub_le _ _)
    · exact Nat.zero_le _
  exact decodeFeedbackBits_closed (initSharedDesc d) data smln bias hmb hL

/-- Witness for C2 at the concrete 4×4 texture: a buffer requesting mip 0
everywhere sets the finest tiles, and the decoded bitset indeed has the
lower-mip ancestor of tile 0 and the packed tile set. -/
theorem C2_witness :
    smallDesc.regularMipLevelsNum < 256 ∧
    (0 < lastRegularFirstTile (initSharedDesc smallDesc) ∧
      getBit (decodeFeedbackBits (initSharedDesc smallDesc)
        ⟨some (fun _ => 0), 0, 0⟩).1 0 = true ∧
      getBit (decodeFeedbackBits (initSharedDesc smallDesc)
        ⟨some (fun _ => 0), 0, 0⟩).1
        ((initSharedDesc smallDesc).tileIndexToLowerMipTileIndex.getD 0 0) = true) ∧
    (0 < (initSharedDesc smallDesc).packedTilesNum ∧
      getBit (decodeFeedbackBits (initSharedDesc smallDesc)
        ⟨some (fun _ => 0), 0, 0⟩).1
        ((initSharedDesc smallDesc).regularTilesNum + 0) = true) := by
  refine ⟨by decide, ⟨by decide, by decide, ?_⟩, ⟨by decide, ?_⟩⟩
  · exact (C2_requested_bits_ancestrally_closed smallDesc (fun _ => 0) 0 0 (by decide)
      (by
        intro i hi
        have hR2 : smallDesc.regularMipLevelsNum = 2 := rfl
        have h0 : i = 0 := by omega
        subst h0
        exact ⟨by decide, by decide⟩)).1 0 (by decide) (by decide)
  · exact (C2_requested_bits_ancestrally_closed smallDesc (fun _ => 0) 0 0 (by decide)
      (by
        intro i hi
        have hR2 : smallDesc.regularMipLevelsNum = 2 := rfl
        have h0 : i = 0 := by omega
        subst h0
        exact ⟨by decide, by decide⟩)).2 0 (by decide)

/-! ### Claim C3: `AllocateRequestedTiles` drains oldest-first and stops at
the first allocation failure

The drain lemma below tracks the loop under the manager's documented
invariants (queue entries pairwise distinct and in `Requested` state,
standby entries distinct and in `Standby` state — the invariants of §8 of
the specification, which hold for every well-formed call sequence). -/

lemma textureAndTile_eq_of {a b : TextureAndTile}
    (h1 : a.textureId = b.textureId) (h2 : a.tileIndex = b.tileIndex) : a = b := by
  cases a
  cases b
  cases h1
  cases h2
  rfl

lemma transitionPrologue_of_ne (m : TiledTextureManagerImpl) (i t : Nat)
    (h : stateOf m i t ≠ .Standby) : transitionPrologue m i t = m := by
  unfold transitionPrologue
  rw [if_neg h]

lemma getTexture_transitionPrologue (m : TiledTextureManagerImpl) (i t j : Nat) :
    getTexture (transitionPrologue m i t) j = getTexture m j := by
  unfold transitionPrologue
  split <;> rfl

lemma stateOf_transitionPrologue (m : TiledTextureManagerImpl) (i t j u : Nat) :
    stateOf (transitionPrologue m i t) j u = stateOf m j u := by
  unfold stateOf
  rw [getTexture_transitionPrologue]

lemma tileAllocator_transitionPrologue (m : TiledTextureManagerImpl) (i t : Nat) :
    (transitionPrologue m i t).tileAllocator = m.tileAllocator := by
  unfold transitionPrologue
  split <;> rfl

lemma stateOf_setTexture_keep (m : TiledTextureManagerImpl) (i : Nat)
    (ts' : TiledTextureState) (j u : Nat)
    (h : ts'.tileStates = (getTexture m i).tileStates) :
    stateOf (setTexture m i ts') j u = stateOf m j u := by
  unfold stateOf
  rw [tileStates_setTexture m i ts' j h]

lemma stateOf_transitionSetState_ne (m : TiledTextureManagerImpl) (i t : Nat)
    (s : TileState) (j u : Nat) (h : ¬(i = j ∧ t = u)) :
    stateOf (transitionSetState m i t s) j u = stateOf m j u := by
  unfold transitionSetState
  by_cases hij : i = j
  · subst hij
    have htu : t ≠ u := fun he => h ⟨rfl, he⟩
    unfold stateOf
    by_cases hb : i < m.tiledTextures.length
    · rw [getTexture_setTexture_self _ _ _ hb]
      exact getD_set_ne _ _ _ htu
    · rw [setTexture_oob _ _ _ (Nat.le_of_not_lt hb)]
  · unfold stateOf
    rw [getTexture_setTexture_ne _ _ hij]

lemma stateOf_transitionSetState_self (m : TiledTextureManagerImpl) (i t : Nat)
    (s : TileState) (hi : i < m.tiledTextures.length)
    (ht : t < (getTexture m i).tileStates.length) :
    stateOf (transitionSetState m i t s) i t = s := by
  unfold transitionSetState stateOf
  rw [getTexture_setTexture_self _ _ _ hi]
  exact getD_set_self _ _ _ _ ht

/-- A tile recorded in a non-`Free` state is in range on both levels (an
out-of-range read would have produced the default `Free`). -/
lemma stateOf_ne_free_bounds (m : TiledTextureManagerImpl) (i t : Nat)
    (h : stateOf m i t ≠ .Free) :
    i < m.tiledTextures.length ∧ t < (getTexture m i).tileStates.length := by
  constructor
  · by_contra hb
    apply h
    unfold stateOf getTexture
    rw [List.getD_eq_default _ _ (Nat.le_of_not_lt hb)]
    rfl
  · by_contra hb
    apply h
    unfold stateOf
    rw [List.getD_eq_default _ _ (Nat.le_of_not_lt hb)]

lemma requestedQueue_TransitionTileToFree (m : TiledTextureManagerImpl) (i t : Nat) :
    (TransitionTileToFree m i t).requestedQueue = m.requestedQueue := by
  show (transitionPrologue m i t).requestedQueue = m.requestedQueue
  unfold transitionPrologue
  split <;> rfl

lemma tilesToMap_TransitionTileToFree (m : TiledTextureManagerImpl) (i t j : Nat) :
    (getTexture (TransitionTileToFree m i t) j).tilesToMap =
      (getTexture m j).tilesToMap := by
  unfold TransitionTileToFree freeCaseActions transitionSetState
  dsimp only
  rw [tilesToMap_setTexture]
  · rw [tilesToMap_setTexture]
    · show (getTexture (transitionPrologue m i t) j).tilesToMap = _
      rw [getTexture_transitionPrologue]
    · rfl
  · rfl

lemma stateOf_TransitionTileToFree_ne (m : TiledTextureManagerImpl) (i t j u : Nat)
    (hne : ¬(i = j ∧ t = u)) :
    stateOf (TransitionTileToFree m i t) j u = stateOf m j u := by
  unfold TransitionTileToFree freeCaseActions
  dsimp only
  rw [stateOf_transitionSetState_ne _ _ _ _ _ _ hne]
  rw [stateOf_setTexture_keep]
  · show stateOf (transitionPrologue m i t) j u = _
    rw [stateOf_transitionPrologue]
  · rfl

lemma heaps_FreeTile_of_nil (a : TileAllocator) (alloc : TileAllocation)
    (h : a.heaps = []) : (a.FreeTile alloc).heaps = [] := by
  unfold TileAllocator.FreeTile
  cases alloc.pHeap with
  | none => exact h
  | some hid =>
    rw [h]
    exact h

lemma heaps_TransitionTileToFree_nil (m : TiledTextureManagerImpl) (i t : Nat)
    (h : m.tileAllocator.heaps = []) :
    (TransitionTileToFree m i t).tileAllocator.heaps = [] := by
  show ((transitionPrologue m i t).tileAllocator.FreeTile _).heaps = []
  rw [tileAllocator_transitionPrologue]
  exact heaps_FreeTile_of_nil _ _ h

lemma AllocateTile_nil (a : TileAllocator) (h : a.heaps = []) (i t : Nat) :
    (a.AllocateTile i t).1 = default := by
  unfold TileAllocator.AllocateTile TileAllocator.FindFreeHeap
  rw [h]
  rfl

/-- The `Allocated` case of `TransitionTile`, written out: when the tile is
not on standby, the function first evicts the standby front if the
allocator is full, then attempts the allocation, and on success records it
and appends the tile to `tilesToMap`. -/
lemma TransitionTile_Allocated_char (m m2 : TiledTextureManagerImpl) (i t : Nat)
    (hpro : stateOf m i t ≠ .Standby)
    (hm2 : (match m.standbyQueue with
      | [] => m
      | f :: _ =>
        if m.tileAllocator.GetFreeTilesNum = 0 then
          TransitionTileToFree m f.textureId f.tileIndex
        else m) = m2) :
    TransitionTile m i t .Allocated =
      if ((m2.tileAllocator.AllocateTile i t).1).IsValid then
        (true, transitionSetState
          (setTexture { m2 with tileAllocator := (m2.tileAllocator.AllocateTile i t).2 } i
            { getTexture m2 i with
                tileAllocations := (getTexture m2 i).tileAllocations.set t
                  (m2.tileAllocator.AllocateTile i t).1
                tilesToMap := (getTexture m2 i).tilesToMap ++ [t]
                allocatedUnpackedTilesNum :=
                  if t < (getSharedDesc m2 (getTexture m2 i).descIndex).regularTilesNum
                  then (getTexture m2 i).allocatedUnpackedTilesNum + 1
                  else (getTexture m2 i).allocatedUnpackedTilesNum })
          i t .Allocated)
      else (false, m2) := by
  subst hm2
  unfold TransitionTile
  rw [transitionPrologue_of_ne m i t hpro]
  rfl

/-- The drain loop: some prefix of the requested queue (oldest first) is
transitioned to `Allocated`, the suffix stays queued in `Requested` state,
each allocated tile is appended (in order) to its texture's `tilesToMap`
and nothing else is, with zero heaps nothing is drained, and tiles in
neither `Requested` nor `Standby` state are untouched. -/
lemma allocateLoop_drain :
    ∀ (fuel : Nat) (m : TiledTextureManagerImpl),
      m.requestedQueue.length ≤ fuel →
      m.requestedQueue.Nodup →
      (∀ e ∈ m.requestedQueue, stateOf m e.textureId e.tileIndex = .Requested) →
      m.standbyQueue.Nodup →
      (∀ e ∈ m.standbyQueue, stateOf m e.textureId e.tileIndex = .Standby) →
      ∃ k, k ≤ m.requestedQueue.length ∧
        (allocateLoop fuel m).requestedQueue = m.requestedQueue.drop k ∧
        (∀ e ∈ m.requestedQueue.drop k,
          stateOf (allocateLoop fuel m) e.textureId e.tileIndex = .Requested) ∧
        (∀ e ∈ m.requestedQueue.take k,
          stateOf (allocateLoop fuel m) e.textureId e.tileIndex = .Allocated) ∧
        (∀ i, (getTexture (allocateLoop fuel m) i).tilesToMap =
          (getTexture m i).tilesToMap ++
            ((m.requestedQueue.take k).filter fun x => x.textureId == i).map
              fun x => x.tileIndex) ∧
        (m.tileAllocator.heaps = [] → k = 0) ∧
        (∀ j u, stateOf m j u ≠ .Requested → stateOf m j u ≠ .Standby →
          stateOf (allocateLoop fuel m) j u = stateOf m j u) := by
  intro fuel
  induction fuel with
  | zero =>
    intro m hfuel hnd hreq hsnd hsb
    have hq : m.requestedQueue = [] :=
      List.eq_nil_of_length_eq_zero (Nat.le_zero.mp hfuel)
    refine ⟨0, Nat.zero_le _, rfl, ?_, ?_, ?_, fun _ => rfl, fun j u _ _ => rfl⟩
    · intro x hx
      exact hreq x hx
    · intro x hx
      exact absurd hx (by simp)
    · intro i
      simp
      rfl
  | succ fuel ih =>
    intro m hfuel hnd hreq hsnd hsb
    cases hq : m.requestedQueue with
    | nil =>
      have hloop : allocateLoop (fuel + 1) m = m := by rw [allocateLoop, hq]
      refine ⟨0, Nat.zero_le _, ?_, ?_, ?_, ?_, fun _ => rfl, ?_⟩
      · rw [hloop, hq]
        rfl
      · intro x hx
        exact absurd hx (by simp)
      · intro x hx
        exact absurd hx (by simp)
      · intro i
        rw [hloop]
        simp
      · intro j u h1 h2
        rw [hloop]
    | cons e rest =>
      rw [hq] at hnd
      have heNotIn : e ∉ rest := (List.nodup_cons.mp hnd).1
      have hndrest : rest.Nodup := (List.nodup_cons.mp hnd).2
      have hreqE : stateOf m e.textureId e.tileIndex = .Requested :=
        hreq e (by rw [hq]; exact List.mem_cons_self _ _)
      have hproE : stateOf m e.textureId e.tileIndex ≠ .Standby := by
        rw [hreqE]
        decide
      have hstepFacts : ∃ m2, (match m.standbyQueue with
          | [] => m
          | f :: _ =>
            if m.tileAllocator.GetFreeTilesNum = 0 then
              TransitionTileToFree m f.textureId f.tileIndex
            else m) = m2 ∧
          m2.requestedQueue = m.requestedQueue ∧
          (∀ j u, stateOf m j u ≠ .Standby → stateOf m2 j u = stateOf m j u) ∧
          m2.standbyQueue.Nodup ∧
          (∀ x ∈ m2.standbyQueue, stateOf m2 x.textureId x.tileIndex = .Standby) ∧
          (∀ i, (getTexture m2 i).tilesToMap = (getTexture m i).tilesToMap) ∧
          (m.tileAllocator.heaps = [] → m2.tileAllocator.heaps = []) := by
        cases hsbq : m.standbyQueue with
        | nil =>
          exact ⟨m, rfl, rfl, fun j u _ => rfl, hsnd, hsb, fun i => rfl, fun h => h⟩
        | cons f s' =>
          by_cases hfree : m.tileAllocator.GetFreeTilesNum = 0
          · have hfS : stateOf m f.textureId f.tileIndex = .Standby :=
              hsb f (by rw [hsbq]; exact List.mem_cons_self _ _)
            have hfnd : f ∉ s' ∧ s'.Nodup := by
              rw [hsbq] at hsnd
              exact List.nodup_cons.mp hsnd
            have hsbEq : (TransitionTileToFree m f.textureId f.tileIndex).standbyQueue
                = s' := by
              show (transitionPrologue m f.textureId f.tileIndex).standbyQueue = s'
              unfold transitionPrologue
              rw [if_pos hfS, hsbq]
              exact List.erase_cons_head _ _
            refine ⟨TransitionTileToFree m f.textureId f.tileIndex,
              if_pos hfree,
              requestedQueue_TransitionTileToFree m _ _, ?_, ?_, ?_,
              fun i => tilesToMap_TransitionTileToFree m _ _ i,
              fun h => heaps_TransitionTileToFree_nil m _ _ h⟩
            · intro j u hju
              apply stateOf_TransitionTileToFree_ne
              intro hc
              exact hju (by rw [← hc.1, ← hc.2]; exact hfS)
            · rw [hsbEq]
              exact hfnd.2
            · intro x hx
              rw [hsbEq] at hx
              have hxS : stateOf m x.textureId x.tileIndex = .Standby :=
                hsb x (by rw [hsbq]; exact List.mem_cons_of_mem _ hx)
              rw [stateOf_TransitionTileToFree_ne]
              · exact hxS
              · intro hc
                exact hfnd.1 ((textureAndTile_eq_of hc.1 hc.2) ▸ hx)
          · exact ⟨m, if_neg hfree, rfl, fun j u _ => rfl, hsnd, hsb, fun i => rfl,
              fun h => h⟩
      obtain ⟨m2, hm2, hm2q, hm2pres, hm2snd, hm2sbst, hm2map, hm2heaps⟩ := hstepFacts
      have hreqE2 : stateOf m2 e.textureId e.tileIndex = .Requested := by
        rw [hm2pres _ _ hproE]
        exact hreqE
      have hbounds := stateOf_ne_free_bounds m2 e.textureId e.tileIndex
        (by rw [hreqE2]; decide)
      have hTT := TransitionTile_Allocated_char m m2 e.textureId e.tileIndex hproE hm2
      have hstepEq : allocateLoop (fuel + 1) m =
          (if (TransitionTile m e.textureId e.tileIndex .Allocated).1 then
            allocateLoop fuel
              { (TransitionTile m e.textureId e.tileIndex .Allocated).2 with
                requestedQueue :=
                  (TransitionTile m e.textureId
                    e.tileIndex .Allocated).2.requestedQueue.tail }
          else (TransitionTile m e.textureId e.tileIndex .Allocated).2) := by
        rw [allocateLoop, hq]
      by_cases hvalid :
          ((m2.tileAllocator.AllocateTile e.textureId e.tileIndex).1).IsValid = true
      · -- allocation succeeds: pop `e`, transition it to Allocated, recurse
        rw [if_pos hvalid] at hTT
        set M3 := transitionSetState
          (setTexture { m2 with
              tileAllocator :=
                (m2.tileAllocator.AllocateTile e.textureId e.tileIndex).2 } e.textureId
            { getTexture m2 e.textureId with
                tileAllocations :=
                  (getTexture m2 e.textureId).tileAllocations.set e.tileIndex
                    (m2.tileAllocator.AllocateTile e.textureId e.tileIndex).1
                tilesToMap := (getTexture m2 e.textureId).tilesToMap ++ [e.tileIndex]
                allocatedUnpackedTilesNum :=
                  if e.tileIndex <
                      (getSharedDesc m2
                        (getTexture m2 e.textureId).descIndex).regularTilesNum
                  then (getTexture m2 e.textureId).allocatedUnpackedTilesNum + 1
                  else (getTexture m2 e.textureId).allocatedUnpackedTilesNum })
          e.textureId e.tileIndex .Allocated with hM3
        have hloop : allocateLoop (fuel + 1) m =
            allocateLoop fuel { M3 with requestedQueue := M3.requestedQueue.tail } := by
          rw [hstepEq, hTT]
          rfl
        have hM3q : M3.requestedQueue = m.requestedQueue := by
          rw [hM3]
          exact hm2q
        have hM3sb : M3.standbyQueue = m2.standbyQueue := by
          rw [hM3]
          rfl
        have hM3pres : ∀ j u, ¬(e.textureId = j ∧ e.tileIndex = u) →
            stateOf M3 j u = stateOf m2 j u := by
          intro j u hne
          rw [hM3]
          rw [stateOf_transitionSetState_ne _ _ _ _ _ _ hne]
          rw [stateOf_setTexture_keep]
          · rfl
          · rfl
        have hM3self : stateOf M3 e.textureId e.tileIndex = .Allocated := by
          rw [hM3]
          apply stateOf_transitionSetState_self
          · rw [setTexture_length]
            exact hbounds.1
          · rw [getTexture_setTexture_self]
            · exact hbounds.2
            · exact hbounds.1
        have hM3map : ∀ i, (getTexture M3 i).tilesToMap =
            (getTexture m i).tilesToMap ++
              (if e.textureId = i then [e.tileIndex] else []) := by
          intro i
          rw [hM3]
          unfold transitionSetState
          rw [tilesToMap_setTexture]
          · by_cases hie : e.textureId = i
            · subst hie
              rw [getTexture_setTexture_self]
              · show (getTexture m2 e.textureId).tilesToMap ++ [e.tileIndex] = _
                rw [hm2map, if_pos rfl]
              · exact hbounds.1
            · rw [getTexture_setTexture_ne _ _ hie]
              show (getTexture m2 i).tilesToMap = _
              rw [hm2map, if_neg hie, List.append_nil]
          · rfl
        have hm'q : ({ M3 with requestedQueue := M3.requestedQueue.tail }).requestedQueue
            = rest := by
          show M3.requestedQueue.tail = rest
          rw [hM3q, hq]
          rfl
        have hrestlen : rest.length ≤ fuel := by
          rw [hq, List.length_cons] at hfuel
          omega
        have hfuel' :
            ({ M3 with requestedQueue := M3.requestedQueue.tail }).requestedQueue.length
              ≤ fuel := by
          rw [hm'q]
          exact hrestlen
        have hnd' :
            ({ M3 with requestedQueue := M3.requestedQueue.tail }).requestedQueue.Nodup := by
          rw [hm'q]
          exact hndrest
        have hreq' : ∀ x ∈
            ({ M3 with requestedQueue := M3.requestedQueue.tail }).requestedQueue,
            stateOf { M3 with requestedQueue := M3.requestedQueue.tail }
              x.textureId x.tileIndex = .Requested := by
          rw [hm'q]
          intro x hx
          have hxm : stateOf m x.textureId x.tileIndex = .Requested :=
            hreq x (by rw [hq]; exact List.mem_cons_of_mem _ hx)
          have hnot : ¬(e.textureId = x.textureId ∧ e.tileIndex = x.tileIndex) := by
            intro hc
            exact heNotIn ((textureAndTile_eq_of hc.1 hc.2) ▸ hx)
          show stateOf M3 x.textureId x.tileIndex = .Requested
          rw [hM3pres _ _ hnot, hm2pres _ _ (by rw [hxm]; decide)]
          exact hxm
        have hsnd' :
            ({ M3 with requestedQueue := M3.requestedQueue.tail }).standbyQueue.Nodup := by
          show M3.standbyQueue.Nodup
          rw [hM3sb]
          exact hm2snd
        have hsb' : ∀ x ∈
            ({ M3 with requestedQueue := M3.requestedQueue.tail }).standbyQueue,
            stateOf { M3 with requestedQueue := M3.requestedQueue.tail }
              x.textureId x.tileIndex = .Standby := by
          intro x hx
          have hx2 : x ∈ m2.standbyQueue := by
            rw [← hM3sb]
            exact hx
          have hxS : stateOf m2 x.textureId x.tileIndex = .Standby := hm2sbst x hx2
          have hnot : ¬(e.textureId = x.textureId ∧ e.tileIndex = x.tileIndex) := by
            intro hc
            have hcontra : stateOf m2 x.textureId x.tileIndex = .Requested := by
              rw [← hc.1, ← hc.2]
              exact hreqE2
            rw [hcontra] at hxS
            exact TileState.noConfusion hxS
          show stateOf M3 x.textureId x.tileIndex = .Standby
          rw [hM3pres _ _ hnot]
          exact hxS
        obtain ⟨k', hk'le, hq', hdrop', htake', hmap', hheaps', hpres'⟩ :=
          ih { M3 with requestedQueue := M3.requestedQueue.tail }
            hfuel' hnd' hreq' hsnd' hsb'
        rw [hm'q] at hk'le hq' hdrop' htake' hmap'
        refine ⟨k' + 1, ?_, ?_, ?_, ?_, ?_, ?_, ?_⟩
        · rw [List.length_cons]
          omega
        · rw [hloop, hq', List.drop_succ_cons]
        · intro x hx
          rw [List.drop_succ_cons] at hx
          rw [hloop]
          exact hdrop' x hx
        · intro x hx
          rw [List.take_succ_cons] at hx
          rcases List.mem_cons.mp hx with hxe | hxr
          · subst hxe
            have hM3selfm' : stateOf
                { M3 with requestedQueue := M3.requestedQueue.tail }
                x.textureId x.tileIndex = .Allocated := hM3self
            rw [hloop,
              hpres' x.textureId x.tileIndex
                (by rw [hM3selfm']; decide) (by rw [hM3selfm']; decide),
              hM3selfm']
          · rw [hloop]
            exact htake' x hxr
        · intro i
          rw [hloop, hmap' i,
            show (getTexture { M3 with requestedQueue := M3.requestedQueue.tail }
              i).tilesToMap = (getTexture M3 i).tilesToMap from rfl,
            hM3map i, List.take_succ_cons, List.filter_cons]
          by_cases hie : e.textureId = i
          · have hbeq : (e.textureId == i) = true := by simp [hie]
            rw [if_pos hbeq, if_pos hie, List.map_cons, List.append_assoc]
            rfl
          · have hbeq : ¬((e.textureId == i) = true) := by simp [hie]
            rw [if_neg hbeq, if_neg hie, List.append_nil]
        · intro h0
          exfalso
          have h2 := hm2heaps h0
          rw [AllocateTile_nil _ h2] at hvalid
          exact absurd hvalid (by decide)
        · intro j u h1 h2
          have hne1 : ¬(e.textureId = j ∧ e.tileIndex = u) := by
            intro hc
            exact h1 (by rw [← hc.1, ← hc.2]; exact hreqE)
          have hstep1 : stateOf { M3 with requestedQueue := M3.requestedQueue.tail } j u
              = stateOf m j u := by
            show stateOf M3 j u = stateOf m j u
            rw [hM3pres _ _ hne1, hm2pres _ _ h2]
          rw [hloop,
            hpres' j u (by rw [hstep1]; exact h1) (by rw [hstep1]; exact h2), hstep1]
      · -- allocation fails: the loop stops with the queue intact
        rw [if_neg hvalid] at hTT
        have hloop : allocateLoop (fuel + 1) m = m2 := by
          rw [hstepEq, hTT]
          rfl
        refine ⟨0, Nat.zero_le _, ?_, ?_, ?_, ?_, fun _ => rfl, ?_⟩
        · rw [hloop, hm2q, hq]
          rfl
        · intro x hx
          rw [hloop]
          have hxq : x ∈ m.requestedQueue := by
            rw [hq]
            exact hx
          rw [hm2pres _ _ (by rw [hreq x hxq]; decide)]
          exact hreq x hxq
        · intro x hx
          exact absurd hx (by simp)
        · intro i
          rw [hloop, hm2map i]
          simp
        · intro j u h1 h2
          rw [hloop]
          exact hm2pres j u h2

/-- **C3.** Under the manager's queue invariants (queue entries distinct
and `Requested`, standby entries distinct and `Standby`),
`AllocateRequestedTiles` transitions some prefix of the requested queue —
oldest first — to `Allocated`, appending exactly those tiles (in order) to
their textures' `tilesToMap`; the loop stops at the first allocation
failure, leaving every remaining entry in the queue in `Requested` state
with nothing appended for it; and with zero heaps nothing is drained at
all. -/
theorem C3_allocate_drains_until_failure (m : TiledTextureManagerImpl)
    (hnd : m.requestedQueue.Nodup)
    (hreq : ∀ e ∈ m.requestedQueue, stateOf m e.textureId e.tileIndex = .Requested)
    (hsnd : m.standbyQueue.Nodup)
    (hsb : ∀ e ∈ m.standbyQueue, stateOf m e.textureId e.tileIndex = .Standby) :
    ∃ k, k ≤ m.requestedQueue.length ∧
      (AllocateRequestedTiles m).requestedQueue = m.requestedQueue.drop k ∧
      (∀ e ∈ m.requestedQueue.take k,
        stateOf (AllocateRequestedTiles m) e.textureId e.tileIndex = .Allocated) ∧
      (∀ e ∈ m.requestedQueue.drop k,
        stateOf (AllocateRequestedTiles m) e.textureId e.tileIndex = .Requested) ∧
      (∀ i, (getTexture (AllocateRequestedTiles m) i).tilesToMap =
        (getTexture m i).tilesToMap ++
          ((m.requestedQueue.take k).filter fun x => x.textureId == i).map
            fun x => x.tileIndex) ∧
      (m.tileAllocator.heaps = [] → k = 0) := by
  obtain ⟨k, h1, h2, h3, h4, h5, h6, _⟩ :=
    allocateLoop_drain m.requestedQueue.length m (Nat.le_refl _) hnd hreq hsnd hsb
  exact ⟨k, h1, h2, h4, h3, h5, h6⟩

/-- Witness for C3 at the concrete manager holding the 4×4 texture: its
requested queue holds the packed tile `(0, 5)`, no heap has been added, and
the drained result keeps the entry queued in `Requested` state. -/
theorem C3_witness :
    smallMgr.requestedQueue.Nodup ∧
    (∀ e ∈ smallMgr.requestedQueue,
      stateOf smallMgr e.textureId e.tileIndex = .Requested) ∧
    smallMgr.standbyQueue.Nodup ∧
    (∀ e ∈ smallMgr.standbyQueue,
      stateOf smallMgr e.textureId e.tileIndex = .Standby) ∧
    (∃ k, k ≤ smallMgr.requestedQueue.length ∧
      (AllocateRequestedTiles smallMgr).requestedQueue =
        smallMgr.requestedQueue.drop k ∧
      (∀ e ∈ smallMgr.requestedQueue.take k,
        stateOf (AllocateRequestedTiles smallMgr) e.textureId e.tileIndex
          = .Allocated) ∧
      (∀ e ∈ smallMgr.requestedQueue.drop k,
        stateOf (AllocateRequestedTiles smallMgr) e.textureId e.tileIndex
          = .Requested) ∧
      (∀ i, (getTexture (AllocateRequestedTiles smallMgr) i).tilesToMap =
        (getTexture smallMgr i).tilesToMap ++
          ((smallMgr.requestedQueue.take k).filter fun x => x.textureId == i).map
            fun x => x.tileIndex) ∧
      (smallMgr.tileAllocator.heaps = [] → k = 0)) :=
  ⟨by decide, by decide, by decide, by decide,
    C3_allocate_drains_until_failure smallMgr (by decide) (by decide) (by decide)
      (by decide)⟩

end Rtxts
